import Mathlib

/-!
Verification of the ARM LPAE I/O page-table allocator
(drivers/iommu/io-pgtable-arm.c).

The development shallowly embeds the allocator: descriptors are 64-bit
words modelled as Nat with explicit bitwise operations and explicit
mod-2^64 wrap where the C code relies on u64 arithmetic; the page-table
tree is modelled as an inductive tree of tables (the pointer graph is a
tree: every table is exclusively owned by the descriptor referencing it,
there is no sharing and no back-pointer), and each mutating operation is
written in explicit state-passing style, returning the updated tree
together with its result code and the trace of TLB/coherency hook calls
it emitted.
-/

namespace IoPgtableArm

/-- Machine word of a page-table entry: C type arm_lpae_iopte, a u64.
Modelled as Nat; where C truncates to 64 bits we mask explicitly. -/
abbrev Iopte := Nat

/-- All-ones 64-bit word. -/
def U64_ONES : Nat := 2 ^ 64 - 1

/-- 64-bit bitwise complement, as C tilde applied to a u64 operand. -/
def not64 (m : Nat) : Nat := U64_ONES ^^^ m

/-! Generic kernel helpers used by the translation unit. -/

/-- Fuel-based floor-log2 so that the kernel can evaluate it; 64 units of
fuel cover every u64 argument. -/
def ilog2_aux : Nat → Nat → Nat
  | 0, _ => 0
  | fuel + 1, n => if 2 ≤ n then ilog2_aux fuel (n / 2) + 1 else 0

/-- C ilog2 (floor log2). Linux ilog2(0) is undefined (the macro yields -1);
here ilog2 0 = 0. The only place a 0 argument can reach ilog2 is
ARM_LPAE_PGD_IDX on a pgd smaller than one granule, where either value
produces an index mask that is wider than the pgd, so no behaviour
visible to the claims differs. -/
def ilog2 (n : Nat) : Nat := ilog2_aux 64 n

/-- Fuel-based lowest-set-bit index; 64 units of fuel cover every u64. -/
def __ffs_aux : Nat → Nat → Nat
  | 0, _ => 0
  | fuel + 1, n => if n = 0 ∨ n % 2 = 1 then 0 else __ffs_aux fuel (n / 2) + 1

/-- Index of the lowest set bit (C __ffs; undefined at 0, returns 0 here). -/
def __ffs (n : Nat) : Nat := __ffs_aux 64 n

/-- Index of the highest set bit (C __fls = fls - 1; undefined at 0). -/
def __fls (n : Nat) : Nat := ilog2 n

def DIV_ROUND_UP (a b : Nat) : Nat := (a + b - 1) / b

def SZ_4K : Nat := 0x1000

def SZ_16K : Nat := 0x4000

def SZ_64K : Nat := 0x10000

def SZ_1M : Nat := 0x100000

def SZ_2M : Nat := 0x200000

def SZ_32M : Nat := 0x2000000

def SZ_512M : Nat := 0x20000000

def SZ_1G : Nat := 0x40000000

/-- Host CPU page size (kernel configuration; 4 KiB on this platform). -/
def PAGE_SIZE : Nat := 4096

/-- Low bits below the CPU page size; the C PAGE_MASK is its complement. -/
def PAGE_MASK_LOW : Nat := PAGE_SIZE - 1

/-- Error numbers (linux errno values; the allocator returns their negations). -/
def ENOMEM : Int := 12

def EEXIST : Int := 17

def EINVAL : Int := 22

/-! Translation-unit constants, names as in the source. -/

def ARM_LPAE_MAX_ADDR_BITS : Nat := 48

def ARM_LPAE_S2_MAX_CONCAT_PAGES : Nat := 16

def ARM_LPAE_MAX_LEVELS : Nat := 4

def ARM_LPAE_PTE_TYPE_SHIFT : Nat := 0

def ARM_LPAE_PTE_TYPE_MASK : Nat := 0x3

def ARM_LPAE_PTE_TYPE_BLOCK : Nat := 1

def ARM_LPAE_PTE_TYPE_TABLE : Nat := 3

def ARM_LPAE_PTE_TYPE_PAGE : Nat := 3

def ARM_LPAE_PTE_NSTABLE : Iopte := 1 <<< 63

def ARM_LPAE_PTE_XN : Iopte := 3 <<< 53

def ARM_LPAE_PTE_AF : Iopte := 1 <<< 10

def ARM_LPAE_PTE_SH_NS : Iopte := 0 <<< 8

def ARM_LPAE_PTE_SH_OS : Iopte := 2 <<< 8

def ARM_LPAE_PTE_SH_IS : Iopte := 3 <<< 8

def ARM_LPAE_PTE_NS : Iopte := 1 <<< 5

def ARM_LPAE_PTE_VALID : Iopte := 1 <<< 0

def ARM_LPAE_PTE_ATTR_LO_MASK : Iopte := 0x3ff <<< 2

/-- High attribute mask; the contiguous bit is deliberately left out
(see the source comment about block splitting). -/
def ARM_LPAE_PTE_ATTR_HI_MASK : Iopte := 6 <<< 52

def ARM_LPAE_PTE_ATTR_MASK : Iopte := ARM_LPAE_PTE_ATTR_LO_MASK ||| ARM_LPAE_PTE_ATTR_HI_MASK

def ARM_LPAE_PTE_AP_PRIV_RW : Iopte := 0 <<< 6

def ARM_LPAE_PTE_AP_RW : Iopte := 1 <<< 6

def ARM_LPAE_PTE_AP_PRIV_RO : Iopte := 2 <<< 6

def ARM_LPAE_PTE_AP_RO : Iopte := 3 <<< 6

def ARM_LPAE_PTE_ATTRINDX_SHIFT : Nat := 2

def ARM_LPAE_PTE_nG : Iopte := 1 <<< 11

def ARM_LPAE_PTE_HAP_FAULT : Iopte := 0 <<< 6

def ARM_LPAE_PTE_HAP_READ : Iopte := 1 <<< 6

def ARM_LPAE_PTE_HAP_WRITE : Iopte := 2 <<< 6

def ARM_LPAE_PTE_MEMATTR_OIWB : Iopte := 0xf <<< 2

def ARM_LPAE_PTE_MEMATTR_NC : Iopte := 0x5 <<< 2

def ARM_LPAE_PTE_MEMATTR_DEV : Iopte := 0x1 <<< 2

def ARM_32_LPAE_TCR_EAE : Nat := 1 <<< 31

def ARM_64_LPAE_S2_TCR_RES1 : Nat := 1 <<< 31

def ARM_LPAE_TCR_TG0_4K : Nat := 0 <<< 14

def ARM_LPAE_TCR_TG0_64K : Nat := 1 <<< 14

def ARM_LPAE_TCR_TG0_16K : Nat := 2 <<< 14

def ARM_LPAE_TCR_SH0_SHIFT : Nat := 12

def ARM_LPAE_TCR_SH0_MASK : Nat := 0x3

def ARM_LPAE_TCR_SH_NS : Nat := 0

def ARM_LPAE_TCR_SH_OS : Nat := 2

def ARM_LPAE_TCR_SH_IS : Nat := 3

def ARM_LPAE_TCR_ORGN0_SHIFT : Nat := 10

def ARM_LPAE_TCR_IRGN0_SHIFT : Nat := 8

def ARM_LPAE_TCR_RGN_MASK : Nat := 0x3

def ARM_LPAE_TCR_RGN_NC : Nat := 0

def ARM_LPAE_TCR_RGN_WBWA : Nat := 1

def ARM_LPAE_TCR_RGN_WT : Nat := 2

def ARM_LPAE_TCR_RGN_WB : Nat := 3

def ARM_LPAE_TCR_SL0_SHIFT : Nat := 6

def ARM_LPAE_TCR_SL0_MASK : Nat := 0x3

def ARM_LPAE_TCR_T0SZ_SHIFT : Nat := 0

def ARM_LPAE_TCR_SZ_MASK : Nat := 0xf

def ARM_LPAE_TCR_PS_SHIFT : Nat := 16

def ARM_LPAE_TCR_PS_MASK : Nat := 0x7

def ARM_LPAE_TCR_IPS_SHIFT : Nat := 32

def ARM_LPAE_TCR_IPS_MASK : Nat := 0x7

def ARM_LPAE_TCR_PS_32_BIT : Nat := 0x0

def ARM_LPAE_TCR_PS_36_BIT : Nat := 0x1

def ARM_LPAE_TCR_PS_40_BIT : Nat := 0x2

def ARM_LPAE_TCR_PS_42_BIT : Nat := 0x3

def ARM_LPAE_TCR_PS_44_BIT : Nat := 0x4

def ARM_LPAE_TCR_PS_48_BIT : Nat := 0x5

def ARM_LPAE_TCR_EPD1_SHIFT : Nat := 23

def ARM_LPAE_TCR_EPD1_FAULT : Nat := 1

def ARM_LPAE_MAIR_ATTR_SHIFT (n : Nat) : Nat := n <<< 3

def ARM_LPAE_MAIR_ATTR_MASK : Nat := 0xff

def ARM_LPAE_MAIR_ATTR_DEVICE : Nat := 0x04

def ARM_LPAE_MAIR_ATTR_NC : Nat := 0x44

def ARM_LPAE_MAIR_ATTR_WBRWA : Nat := 0xff

def ARM_LPAE_MAIR_ATTR_IDX_NC : Nat := 0

def ARM_LPAE_MAIR_ATTR_IDX_CACHE : Nat := 1

def ARM_LPAE_MAIR_ATTR_IDX_DEV : Nat := 2

/-! The table-use counter hidden in ignored descriptor bits. -/

def BOTTOM_IGNORED_MASK : Nat := 0x3ff

def BOTTOM_IGNORED_SHIFT : Nat := 2

def BOTTOM_IGNORED_NUM_BITS : Nat := 10

def TOP_IGNORED_MASK : Nat := 0x7f

def TOP_IGNORED_SHIFT : Nat := 52

def IOPTE_RESERVED_MASK : Nat :=
  (BOTTOM_IGNORED_MASK <<< BOTTOM_IGNORED_SHIFT) ||| (TOP_IGNORED_MASK <<< TOP_IGNORED_SHIFT)

def iopte_val (table_pte : Iopte) : Iopte := table_pte &&& not64 IOPTE_RESERVED_MASK

def _iopte_bottom_ignored_val (table_pte : Iopte) : Iopte :=
  (table_pte &&& (BOTTOM_IGNORED_MASK <<< BOTTOM_IGNORED_SHIFT)) >>> BOTTOM_IGNORED_SHIFT

def _iopte_top_ignored_val (table_pte : Iopte) : Iopte :=
  (table_pte &&& (TOP_IGNORED_MASK <<< TOP_IGNORED_SHIFT)) >>> TOP_IGNORED_SHIFT

def iopte_tblcnt (table_pte : Iopte) : Nat :=
  _iopte_bottom_ignored_val table_pte |||
    (_iopte_top_ignored_val table_pte <<< BOTTOM_IGNORED_NUM_BITS)

def iopte_tblcnt_set (table_pte : Iopte) (val : Nat) : Iopte :=
  iopte_val table_pte |||
    (((val &&& BOTTOM_IGNORED_MASK) <<< BOTTOM_IGNORED_SHIFT) |||
     (((val &&& (TOP_IGNORED_MASK <<< BOTTOM_IGNORED_NUM_BITS)) >>> BOTTOM_IGNORED_NUM_BITS)
       <<< TOP_IGNORED_SHIFT))

/-- current_cnt is a u64 in the source; the subtraction wraps mod 2^64
before iopte_tblcnt_set masks the fields out of it. In every call site
cnt is at most the stored count, where this is plain subtraction. -/
def iopte_tblcnt_sub (table_ptep : Iopte) (cnt : Nat) : Iopte :=
  iopte_tblcnt_set table_ptep ((iopte_tblcnt table_ptep + (2 ^ 64 - cnt % 2 ^ 64)) % 2 ^ 64)

def iopte_tblcnt_add (table_ptep : Iopte) (cnt : Nat) : Iopte :=
  iopte_tblcnt_set table_ptep ((iopte_tblcnt table_ptep + cnt) % 2 ^ 64)

def iopte_type (pte : Iopte) : Nat :=
  (pte >>> ARM_LPAE_PTE_TYPE_SHIFT) &&& ARM_LPAE_PTE_TYPE_MASK

def iopte_prot (pte : Iopte) : Iopte := pte &&& ARM_LPAE_PTE_ATTR_MASK

def iopte_leaf (pte : Iopte) (l : Nat) : Bool :=
  if l = ARM_LPAE_MAX_LEVELS - 1 then iopte_type pte = ARM_LPAE_PTE_TYPE_PAGE
  else iopte_type pte = ARM_LPAE_PTE_TYPE_BLOCK

/-! Configuration and derived geometry. -/

inductive IoPgtableFmt where
  | ARM_64_LPAE_S1
  | ARM_64_LPAE_S2
  | ARM_32_LPAE_S1
  | ARM_32_LPAE_S2
deriving DecidableEq, Repr

structure IoPgtableCfg where
  /-- IO_PGTABLE_QUIRK_ARM_NS bit of the quirks word. -/
  quirk_arm_ns : Bool
  pgsize_bitmap : Nat
  ias : Nat
  oas : Nat
deriving DecidableEq, Repr

/-- struct arm_lpae_io_pgtable minus the embedded struct io_pgtable;
fmt and cfg stand in for iop.fmt and iop.cfg, and the pgd pointer is
replaced by the tree value the operations thread explicitly. -/
structure ArmLpaeData where
  fmt : IoPgtableFmt
  cfg : IoPgtableCfg
  levels : Nat
  pgd_size : Nat
  pg_shift : Nat
  bits_per_level : Nat
deriving DecidableEq, Repr

def ARM_LPAE_START_LVL (d : ArmLpaeData) : Nat := ARM_LPAE_MAX_LEVELS - d.levels

def ARM_LPAE_LVL_SHIFT (l : Nat) (d : ArmLpaeData) : Nat :=
  (d.levels - (l - ARM_LPAE_START_LVL d + 1)) * d.bits_per_level + d.pg_shift

def ARM_LPAE_PAGES_PER_PGD (d : ArmLpaeData) : Nat := d.pgd_size >>> d.pg_shift

def ARM_LPAE_PGD_IDX (l : Nat) (d : ArmLpaeData) : Nat :=
  if l = ARM_LPAE_START_LVL d then ilog2 (ARM_LPAE_PAGES_PER_PGD d) else 0

def ARM_LPAE_LVL_IDX (a : Nat) (l : Nat) (d : ArmLpaeData) : Nat :=
  (a >>> ARM_LPAE_LVL_SHIFT l d) &&&
    ((1 <<< (d.bits_per_level + ARM_LPAE_PGD_IDX l d)) - 1)

/-- Block/page mapping size at level l; sizeof(arm_lpae_iopte) = 8. -/
def ARM_LPAE_BLOCK_SIZE (l : Nat) (d : ArmLpaeData) : Nat :=
  1 <<< (ilog2 8 + (ARM_LPAE_MAX_LEVELS - l) * d.bits_per_level)

def iopte_to_pfn (pte : Iopte) (d : ArmLpaeData) : Nat :=
  (pte &&& ((1 <<< ARM_LPAE_MAX_ADDR_BITS) - 1)) >>> d.pg_shift

def pfn_to_iopte (pfn : Nat) (d : ArmLpaeData) : Iopte :=
  (pfn <<< d.pg_shift) &&& ((1 <<< ARM_LPAE_MAX_ADDR_BITS) - 1)

/-- Capability set passed as the int prot argument (IOMMU_READ and
friends). The numeric flag values live in a header outside this
repository and only membership tests occur here, so the set is a record
of flags. -/
structure IommuProt where
  read : Bool
  write : Bool
  cache : Bool
  noexec : Bool
  device : Bool
  priv : Bool
deriving DecidableEq, Repr

def arm_lpae_prot_to_pte (data : ArmLpaeData) (prot : IommuProt) : Iopte :=
  let pte :=
    if data.fmt = IoPgtableFmt.ARM_64_LPAE_S1 ∨ data.fmt = IoPgtableFmt.ARM_32_LPAE_S1 then
      let pte := ARM_LPAE_PTE_nG
      let pte := pte |||
        (if prot.write then
           (if prot.priv then ARM_LPAE_PTE_AP_PRIV_RW else ARM_LPAE_PTE_AP_RW)
         else
           (if prot.priv then ARM_LPAE_PTE_AP_PRIV_RO else ARM_LPAE_PTE_AP_RO))
      let pte := if prot.cache then
          pte ||| (ARM_LPAE_MAIR_ATTR_IDX_CACHE <<< ARM_LPAE_PTE_ATTRINDX_SHIFT)
        else pte
      let pte := if prot.device then
          pte ||| (ARM_LPAE_MAIR_ATTR_IDX_DEV <<< ARM_LPAE_PTE_ATTRINDX_SHIFT)
        else pte
      pte
    else
      let pte := ARM_LPAE_PTE_HAP_FAULT
      let pte := if prot.read then pte ||| ARM_LPAE_PTE_HAP_READ else pte
      let pte := if prot.write then pte ||| ARM_LPAE_PTE_HAP_WRITE else pte
      let pte := if prot.cache then pte ||| ARM_LPAE_PTE_MEMATTR_OIWB
        else pte ||| ARM_LPAE_PTE_MEMATTR_NC
      let pte := if prot.device then pte ||| ARM_LPAE_PTE_MEMATTR_DEV else pte
      pte
  if prot.noexec then pte ||| ARM_LPAE_PTE_XN else pte

/-! Geometry construction (arm_lpae_restrict_pgsizes, arm_lpae_alloc_pgtable
and the four format-specific entry points). The page allocator is modelled
as always succeeding at construction time; every claim about a constructed
allocator assumes the construction returned a handle, and the failure cases
the claims mention (invalid oas, ias out of range, empty page-size bitmap)
are all decided before any allocation in the source. -/

/-- The granule selection at the top of arm_lpae_restrict_pgsizes: the CPU
page size if listed, else the largest listed size below it, else the
smallest listed size above it. -/
def arm_lpae_restrict_granule (bitmap : Nat) : Nat :=
  if bitmap &&& PAGE_SIZE ≠ 0 then PAGE_SIZE
  else if bitmap &&& PAGE_MASK_LOW ≠ 0 then
    1 <<< __fls (bitmap &&& PAGE_MASK_LOW)
  else if bitmap &&& not64 PAGE_MASK_LOW ≠ 0 then
    1 <<< __ffs (bitmap &&& not64 PAGE_MASK_LOW)
  else 0

def arm_lpae_restrict_pgsizes (cfg : IoPgtableCfg) : IoPgtableCfg :=
  let granule := arm_lpae_restrict_granule cfg.pgsize_bitmap
  { cfg with pgsize_bitmap :=
      if granule = SZ_4K then cfg.pgsize_bitmap &&& (SZ_4K ||| SZ_2M ||| SZ_1G)
      else if granule = SZ_16K then cfg.pgsize_bitmap &&& (SZ_16K ||| SZ_32M)
      else if granule = SZ_64K then cfg.pgsize_bitmap &&& (SZ_64K ||| SZ_512M)
      else 0 }

def arm_lpae_alloc_pgtable (fmt : IoPgtableFmt) (cfg0 : IoPgtableCfg) :
    Option (IoPgtableCfg × ArmLpaeData) :=
  let cfg := arm_lpae_restrict_pgsizes cfg0
  if cfg.pgsize_bitmap &&& (SZ_4K ||| SZ_16K ||| SZ_64K) = 0 then none
  else if ARM_LPAE_MAX_ADDR_BITS < cfg.ias then none
  else if ARM_LPAE_MAX_ADDR_BITS < cfg.oas then none
  else
    let pg_shift := __ffs cfg.pgsize_bitmap
    let bits_per_level := pg_shift - ilog2 8
    let va_bits := cfg.ias - pg_shift
    let levels := DIV_ROUND_UP va_bits bits_per_level
    let pgd_bits := va_bits - bits_per_level * (levels - 1)
    let pgd_size := 1 <<< (pgd_bits + ilog2 8)
    some (cfg, ⟨fmt, cfg, levels, pgd_size, pg_shift, bits_per_level⟩)

/-- The oas switch shared verbatim by the stage-1 and stage-2 constructors:
the PS/IPS encoding of a supported output address size, none for any
other value (the constructors then free the data and return null). -/
def ARM_LPAE_TCR_PS_OF_OAS (oas : Nat) : Option Nat :=
  if oas = 32 then some ARM_LPAE_TCR_PS_32_BIT
  else if oas = 36 then some ARM_LPAE_TCR_PS_36_BIT
  else if oas = 40 then some ARM_LPAE_TCR_PS_40_BIT
  else if oas = 42 then some ARM_LPAE_TCR_PS_42_BIT
  else if oas = 44 then some ARM_LPAE_TCR_PS_44_BIT
  else if oas = 48 then some ARM_LPAE_TCR_PS_48_BIT
  else none

/-- Stage-1 register file produced at construction (ttbr values carry the
pgd physical address and are outside the tree model). -/
structure ArmLpaeS1Cfg where
  tcr : Nat
  mair0 : Nat
  mair1 : Nat
deriving DecidableEq, Repr

structure ArmLpaeS2Cfg where
  vtcr : Nat
deriving DecidableEq, Repr

def arm_64_lpae_alloc_pgtable_s1 (cfg0 : IoPgtableCfg) :
    Option (IoPgtableCfg × ArmLpaeData × ArmLpaeS1Cfg) := do
  let (cfg, data) ← arm_lpae_alloc_pgtable IoPgtableFmt.ARM_64_LPAE_S1 cfg0
  let reg := (ARM_LPAE_TCR_SH_IS <<< ARM_LPAE_TCR_SH0_SHIFT) |||
             (ARM_LPAE_TCR_RGN_NC <<< ARM_LPAE_TCR_IRGN0_SHIFT) |||
             (ARM_LPAE_TCR_RGN_NC <<< ARM_LPAE_TCR_ORGN0_SHIFT)
  let reg :=
    if (1 <<< data.pg_shift) = SZ_4K then reg ||| ARM_LPAE_TCR_TG0_4K
    else if (1 <<< data.pg_shift) = SZ_16K then reg ||| ARM_LPAE_TCR_TG0_16K
    else if (1 <<< data.pg_shift) = SZ_64K then reg ||| ARM_LPAE_TCR_TG0_64K
    else reg
  let ps ← ARM_LPAE_TCR_PS_OF_OAS cfg.oas
  let reg := reg ||| (ps <<< ARM_LPAE_TCR_IPS_SHIFT)
  let reg := reg ||| ((64 - cfg.ias) <<< ARM_LPAE_TCR_T0SZ_SHIFT)
  let reg := reg ||| (ARM_LPAE_TCR_EPD1_FAULT <<< ARM_LPAE_TCR_EPD1_SHIFT)
  let tcr := reg
  let mair := (ARM_LPAE_MAIR_ATTR_NC <<< ARM_LPAE_MAIR_ATTR_SHIFT ARM_LPAE_MAIR_ATTR_IDX_NC) |||
              (ARM_LPAE_MAIR_ATTR_WBRWA <<< ARM_LPAE_MAIR_ATTR_SHIFT ARM_LPAE_MAIR_ATTR_IDX_CACHE) |||
              (ARM_LPAE_MAIR_ATTR_DEVICE <<< ARM_LPAE_MAIR_ATTR_SHIFT ARM_LPAE_MAIR_ATTR_IDX_DEV)
  some (cfg, data, ⟨tcr, mair, 0⟩)

/-- The stage-2 pgd concatenation step: when the walk would need the
maximum number of levels and the level-0 table fits in at most 16 level-1
pages, fold the top level into a widened root. -/
def arm_lpae_concat_pgd (data0 : ArmLpaeData) : ArmLpaeData :=
  if data0.levels = ARM_LPAE_MAX_LEVELS then
    let pgd_pages := data0.pgd_size >>> ilog2 8
    if pgd_pages ≤ ARM_LPAE_S2_MAX_CONCAT_PAGES then
      { data0 with pgd_size := pgd_pages <<< data0.pg_shift, levels := data0.levels - 1 }
    else data0
  else data0

/-- The stage-2 granule switch: adds TG0 to the register and applies the
SL0 adjustment for the 4K granule. -/
def arm_lpae_s2_tg0_sl (pg_shift reg sl : Nat) : Nat × Nat :=
  if (1 <<< pg_shift) = SZ_4K then (reg ||| ARM_LPAE_TCR_TG0_4K, sl + 1)
  else if (1 <<< pg_shift) = SZ_16K then (reg ||| ARM_LPAE_TCR_TG0_16K, sl)
  else if (1 <<< pg_shift) = SZ_64K then (reg ||| ARM_LPAE_TCR_TG0_64K, sl)
  else (reg, sl)

def arm_64_lpae_alloc_pgtable_s2 (cfg0 : IoPgtableCfg) :
    Option (IoPgtableCfg × ArmLpaeData × ArmLpaeS2Cfg) := do
  let (cfg, data0) ← arm_lpae_alloc_pgtable IoPgtableFmt.ARM_64_LPAE_S2 cfg0
  let data := arm_lpae_concat_pgd data0
  let reg := ARM_64_LPAE_S2_TCR_RES1 |||
             (ARM_LPAE_TCR_SH_IS <<< ARM_LPAE_TCR_SH0_SHIFT) |||
             (ARM_LPAE_TCR_RGN_WBWA <<< ARM_LPAE_TCR_IRGN0_SHIFT) |||
             (ARM_LPAE_TCR_RGN_WBWA <<< ARM_LPAE_TCR_ORGN0_SHIFT)
  let sl := ARM_LPAE_START_LVL data
  let rs := arm_lpae_s2_tg0_sl data.pg_shift reg sl
  let ps ← ARM_LPAE_TCR_PS_OF_OAS cfg.oas
  let reg := rs.1 ||| (ps <<< ARM_LPAE_TCR_PS_SHIFT)
  let reg := reg ||| ((64 - cfg.ias) <<< ARM_LPAE_TCR_T0SZ_SHIFT)
  let reg := reg ||| ((not64 rs.2 &&& ARM_LPAE_TCR_SL0_MASK) <<< ARM_LPAE_TCR_SL0_SHIFT)
  some (cfg, data, ⟨reg⟩)

def arm_32_lpae_alloc_pgtable_s1 (cfg0 : IoPgtableCfg) :
    Option (IoPgtableCfg × ArmLpaeData × ArmLpaeS1Cfg) :=
  if 32 < cfg0.ias ∨ 40 < cfg0.oas then none
  else
    let cfg1 := { cfg0 with pgsize_bitmap := cfg0.pgsize_bitmap &&& (SZ_4K ||| SZ_2M ||| SZ_1G) }
    match arm_64_lpae_alloc_pgtable_s1 cfg1 with
    | none => none
    | some (cfg, data, s1) =>
        some (cfg, data, ⟨(s1.tcr ||| ARM_32_LPAE_TCR_EAE) &&& 0xffffffff, s1.mair0, s1.mair1⟩)

def arm_32_lpae_alloc_pgtable_s2 (cfg0 : IoPgtableCfg) :
    Option (IoPgtableCfg × ArmLpaeData × ArmLpaeS2Cfg) :=
  if 40 < cfg0.ias ∨ 40 < cfg0.oas then none
  else
    let cfg1 := { cfg0 with pgsize_bitmap := cfg0.pgsize_bitmap &&& (SZ_4K ||| SZ_2M ||| SZ_1G) }
    match arm_64_lpae_alloc_pgtable_s2 cfg1 with
    | none => none
    | some (cfg, data, s2) =>
        some (cfg, data, ⟨s2.vtcr &&& 0xffffffff⟩)

/-! TCR field observers (architectural bit positions). -/

def TCR_FIELD_T0SZ (tcr : Nat) : Nat := (tcr >>> ARM_LPAE_TCR_T0SZ_SHIFT) &&& 0x3f

def TCR_FIELD_EPD1 (tcr : Nat) : Nat := (tcr >>> ARM_LPAE_TCR_EPD1_SHIFT) &&& 0x1

def TCR_FIELD_TG0 (tcr : Nat) : Nat := (tcr >>> 14) &&& 0x3

def TCR_FIELD_IPS (tcr : Nat) : Nat := (tcr >>> ARM_LPAE_TCR_IPS_SHIFT) &&& ARM_LPAE_TCR_IPS_MASK

def TCR_FIELD_SH0 (tcr : Nat) : Nat := (tcr >>> ARM_LPAE_TCR_SH0_SHIFT) &&& ARM_LPAE_TCR_SH0_MASK

/-- TG0 value that selects a granule: 0 for 4K, 2 for 16K, 1 for 64K. -/
def ARM_LPAE_TCR_TG0_OF_GRANULE (pg_shift : Nat) : Nat :=
  if pg_shift = 12 then 0
  else if pg_shift = 14 then 2
  else 1

/-! The value written by arm_lpae_init_pte, split from its store / publish /
counter side effects (which live with the tree model below). -/

def arm_lpae_init_pte_value (data : ArmLpaeData) (paddr : Nat) (prot : Iopte)
    (lvl : Nat) : Iopte :=
  let pte := prot
  let pte := if data.cfg.quirk_arm_ns then pte ||| ARM_LPAE_PTE_NS else pte
  let pte := if lvl = ARM_LPAE_MAX_LEVELS - 1 then pte ||| ARM_LPAE_PTE_TYPE_PAGE
             else pte ||| ARM_LPAE_PTE_TYPE_BLOCK
  let pte := pte ||| (ARM_LPAE_PTE_AF ||| ARM_LPAE_PTE_SH_IS)
  let pte := pte ||| pfn_to_iopte (paddr >>> data.pg_shift) data
  pte

/-! The page-table tree model.

Tables are modelled as an inductive tree: every table the allocator
creates is owned by exactly one table descriptor (spec I1 and the design
note: no sharing, no back-pointer), so a slot carries its raw 64-bit
descriptor together with the owned child table when the allocator
created one behind it. iopte_deref, whose C body masks the address bits
out of the descriptor and converts them to a pointer, becomes following
the owned child: the physical address the environment chose for the
child has no observable counterpart here, so the address field of a
table descriptor is modelled as zero while its type, NSTABLE and counter
bits are maintained exactly as the source writes them. A dereference of
a descriptor that owns no table in the model (the source walking through
a block leaf into foreign memory) reads zeroes and its writes are
dropped: they land outside every table the allocator owns.

The mutating operations are state-passing: they return the updated tree,
the remaining allocation budget (the page allocator is the collaborator;
a call succeeds while the budget is positive, so a run with a large
enough budget is a run in which allocation never fails), and the ordered
trace of TLB/coherency hook calls. Level recursion is driven by an
explicit fuel argument, always instantiated so that it cannot run out
before the level guards of the source stop the recursion. -/

/-- TLB / coherency hook invocations in program order. flush_pgtable
keeps its length argument; pointer arguments have no counterpart here. -/
inductive TlbEvent where
  | flush_pgtable (len : Nat)
  | tlb_flush_all
  | tlb_add_flush (iova : Nat) (size : Nat) (leaf : Bool)
  | tlb_sync
deriving DecidableEq, Repr

inductive PTab where
  | mk (slots : List (Iopte × Option PTab)) : PTab

def PTab.slots : PTab → List (Iopte × Option PTab)
  | .mk s => s

/-- Reading a slot; out-of-range reads see zeroed memory (unreachable on
well-formed trees, where every index fits the table). -/
def readSlot (t : PTab) (idx : Nat) : Iopte × Option PTab :=
  t.slots.getD idx (0, none)

def writeSlot (t : PTab) (idx : Nat) (s : Iopte × Option PTab) : PTab :=
  .mk (t.slots.set idx s)

/-- A freshly allocated, zero-filled table of the given byte size
(io_pgtable_alloc_pages_exact with __GFP_ZERO); 8 bytes per slot. -/
def emptyTable (bytes : Nat) : PTab :=
  .mk (List.replicate (bytes / 8) (0, none))

/-- The zeroed root the constructors allocate. -/
def arm_lpae_pgd (data : ArmLpaeData) : PTab := emptyTable data.pgd_size

/-- Zero a run of slots (the memset of the bulk-erase path). -/
def zeroRange (t : PTab) (off : Nat) : Nat → PTab
  | 0 => t
  | n + 1 => zeroRange (writeSlot t off (0, none)) (off + 1) n

/-- C round_down(x, y) for a power-of-two y. -/
def round_down (x y : Nat) : Nat := x - x % y

/-- Modelled from the spec: iommu_pgsize lives in drivers/iommu/iommu.c,
outside this repository; spec 4.4 describes it as selecting the largest
block size in pgsize_bitmap that divides the current alignment of
iova|pa and does not exceed the remaining length. Returns 0 when no
supported size fits (the kernel helper BUGs there; unreachable for
inputs aligned to the smallest supported page size). -/
def iommu_pgsize (pgsize_bitmap addr_merge size : Nat) : Nat :=
  (List.range 64).foldl
    (fun acc k =>
      if pgsize_bitmap.testBit k ∧ (1 <<< k) ≤ size ∧ addr_merge % (1 <<< k) = 0
      then 1 <<< k else acc)
    0

/-- arm_lpae_init_pte acting on one slot. The store and the optional
publish are here; the increment of the previous-level counter that the C
code performs through prev_ptep is reported to the caller through the
installed flag of the map result (the caller owns that slot). -/
def arm_lpae_init_pte (data : ArmLpaeData) (iova paddr : Nat) (prot : Iopte)
    (lvl : Nat) (slot : Iopte × Option PTab) (flush : Bool) :
    Int × (Iopte × Option PTab) × List TlbEvent :=
  if slot.1 &&& ARM_LPAE_PTE_VALID ≠ 0 then
    (-EEXIST, slot, [])
  else
    let pte := arm_lpae_init_pte_value data paddr prot lvl
    (0, (pte, none), if flush then [TlbEvent.flush_pgtable 8] else [])

/-- struct map_state. The C struct stores two raw pointers into the tree
(the level-3 table of the open batch and the slot referencing it);
the model stores the index path from the root to that level-3 table,
whose last entry names the referencing slot. pgtable_path = none is the
NULL pgtable of the zeroed struct. -/
structure MapState where
  iova_end : Nat
  pgsize : Nat
  pgtable_path : Option (List Nat)
  pte_start : Nat
  num_pte : Nat
deriving DecidableEq, Repr

def MAP_STATE_LVL : Nat := 3

def mapStateCleared : MapState := ⟨0, 0, none, 0, 0⟩

structure MapRes where
  ret : Int
  tbl : PTab
  installed_here : Bool
  budget : Nat
  ms : Option MapState
  evs : List TlbEvent

def __arm_lpae_map (data : ArmLpaeData) (iova paddr size : Nat) (prot : Iopte) :
    (lvl : Nat) → (tbl : PTab) → (path : List Nat) → (ms : Option MapState) →
    (budget : Nat) → (fuel : Nat) → MapRes :=
  fun lvl tbl path ms budget fuel =>
  let block_size := ARM_LPAE_BLOCK_SIZE lvl data
  let idx := ARM_LPAE_LVL_IDX iova lvl data
  let slot := readSlot tbl idx
  if size = block_size ∧ size &&& data.cfg.pgsize_bitmap ≠ 0 then
    match ms with
    | none =>
        let r := arm_lpae_init_pte data iova paddr prot lvl slot true
        ⟨r.1, writeSlot tbl idx r.2.1, r.1 = 0, budget, none, r.2.2⟩
    | some msv =>
        if lvl = MAP_STATE_LVL then
          let evs0 := if msv.pgtable_path.isSome then
              [TlbEvent.flush_pgtable (msv.num_pte * 8)] else []
          let ms2 : MapState := ⟨round_down iova SZ_2M + SZ_2M, size, some path, idx, 1⟩
          let r := arm_lpae_init_pte data iova paddr prot lvl slot false
          ⟨r.1, writeSlot tbl idx r.2.1, r.1 = 0, budget, some ms2, evs0 ++ r.2.2⟩
        else
          let evs0 := if msv.pgtable_path.isSome then
              [TlbEvent.flush_pgtable (msv.num_pte * 8)] else []
          let r := arm_lpae_init_pte data iova paddr prot lvl slot true
          ⟨r.1, writeSlot tbl idx r.2.1, r.1 = 0, budget, some mapStateCleared, evs0 ++ r.2.2⟩
  else if ARM_LPAE_MAX_LEVELS - 1 ≤ lvl then
    ⟨-EINVAL, tbl, false, budget, ms, []⟩
  else
    match fuel with
    | 0 => ⟨-EINVAL, tbl, false, budget, ms, []⟩
    | fuel + 1 =>
      if slot.1 = 0 then
        if budget = 0 then ⟨-ENOMEM, tbl, false, budget, ms, []⟩
        else
          let cptep := emptyTable (1 <<< data.pg_shift)
          let newpte : Iopte := ARM_LPAE_PTE_TYPE_TABLE |||
            (if data.cfg.quirk_arm_ns then ARM_LPAE_PTE_NSTABLE else 0)
          let r := __arm_lpae_map data iova paddr size prot (lvl + 1) cptep
            (path ++ [idx]) ms (budget - 1) fuel
          let childDesc := if r.installed_here then iopte_tblcnt_add newpte 1 else newpte
          ⟨r.ret, writeSlot tbl idx (childDesc, some r.tbl), false, r.budget, r.ms,
            TlbEvent.flush_pgtable (1 <<< data.pg_shift) :: TlbEvent.flush_pgtable 8 :: r.evs⟩
      else
        match slot.2 with
        | some cptep =>
            let r := __arm_lpae_map data iova paddr size prot (lvl + 1) cptep
              (path ++ [idx]) ms budget fuel
            let childDesc := if r.installed_here then iopte_tblcnt_add slot.1 1 else slot.1
            ⟨r.ret, writeSlot tbl idx (childDesc, some r.tbl), false, r.budget, r.ms, r.evs⟩
        | none =>
            let r := __arm_lpae_map data iova paddr size prot (lvl + 1)
              (emptyTable (1 <<< data.pg_shift)) (path ++ [idx]) ms budget fuel
            ⟨r.ret, tbl, false, r.budget, r.ms, r.evs⟩

def arm_lpae_map (data : ArmLpaeData) (t : PTab) (iova paddr size : Nat)
    (iommu_prot : IommuProt) (budget : Nat) : Int × PTab × List TlbEvent :=
  if ¬ (iommu_prot.read = true ∨ iommu_prot.write = true) then (0, t, [])
  else
    let prot := arm_lpae_prot_to_pte data iommu_prot
    let r := __arm_lpae_map data iova paddr size prot (ARM_LPAE_START_LVL data) t []
      none budget ARM_LPAE_MAX_LEVELS
    (r.ret, r.tbl, r.evs)

def arm_lpae_iova_to_phys_aux (data : ArmLpaeData) :
    Nat → Option PTab → Nat → Nat → Nat
  | 0, _, _, _ => 0
  | fuel + 1, optT, iova, lvl =>
    match optT with
    | none => 0
    | some t =>
      let slot := readSlot t (ARM_LPAE_LVL_IDX iova lvl data)
      if slot.1 = 0 then 0
      else if iopte_leaf slot.1 lvl then
        (iopte_to_pfn slot.1 data <<< data.pg_shift) |||
          (iova &&& ((1 <<< ARM_LPAE_LVL_SHIFT lvl data) - 1))
      else if lvl + 1 < ARM_LPAE_MAX_LEVELS then
        arm_lpae_iova_to_phys_aux data fuel slot.2 iova (lvl + 1)
      else 0

def arm_lpae_iova_to_phys (data : ArmLpaeData) (t : PTab) (iova : Nat) : Nat :=
  arm_lpae_iova_to_phys_aux data ARM_LPAE_MAX_LEVELS (some t) iova
    (ARM_LPAE_START_LVL data)

/-! Block split on partial unmap. The C code hands __arm_lpae_map a
fabricated table base so that the standard indexing lands on a local
variable; following the design note, the model reproduces that logically
by wrapping the local slot in a table that puts it at the index the
mapper will compute. -/

def wrapSlot (idx : Nat) (s : Iopte × Option PTab) : PTab :=
  .mk (List.replicate idx (0, none) ++ [s])

structure SplitRes where
  bytes : Nat
  slot : Iopte × Option PTab
  budget : Nat
  evs : List TlbEvent

def arm_lpae_split_blk_loop (data : ArmLpaeData) (iova sizeC : Nat) (prot : Iopte)
    (lvl : Nat) :
    (n : Nat) → (blk_start blk_paddr : Nat) →
    (table : Iopte × Option PTab) → (budget : Nat) → (evs : List TlbEvent) →
    (Bool × (Iopte × Option PTab) × Nat × List TlbEvent)
  | 0, _, _, table, budget, evs => (true, table, budget, evs)
  | n + 1, blk_start, blk_paddr, table, budget, evs =>
    if blk_start = iova then
      arm_lpae_split_blk_loop data iova sizeC prot lvl n (blk_start + sizeC)
        (blk_paddr + sizeC) table budget evs
    else
      let idx := ARM_LPAE_LVL_IDX blk_start lvl data
      let r := __arm_lpae_map data blk_start blk_paddr sizeC prot lvl
        (wrapSlot idx table) [] none budget ARM_LPAE_MAX_LEVELS
      if r.ret < 0 then
        (false, table, r.budget, evs ++ r.evs)
      else
        arm_lpae_split_blk_loop data iova sizeC prot lvl n (blk_start + sizeC)
          (blk_paddr + sizeC) (readSlot r.tbl idx) r.budget (evs ++ r.evs)

def arm_lpae_split_blk_unmap (data : ArmLpaeData) (iova size : Nat) (prot : Iopte)
    (lvl : Nat) (slot : Iopte × Option PTab) (budget : Nat) (blk_size : Nat) :
    SplitRes :=
  let blk_start := iova &&& not64 (blk_size - 1)
  let blk_paddr := iopte_to_pfn slot.1 data <<< data.pg_shift
  let sizeC := ARM_LPAE_BLOCK_SIZE (lvl + 1) data
  let r := arm_lpae_split_blk_loop data iova sizeC prot lvl
    (blk_size / sizeC) blk_start blk_paddr (0, none) budget []
  if r.1 then
    ⟨sizeC, r.2.1, r.2.2.1, r.2.2.2 ++ [TlbEvent.flush_pgtable 8]⟩
  else
    -- free the partially built table and leave the block in place
    ⟨0, slot, r.2.2.1, r.2.2.2⟩

structure UnmapRes where
  bytes : Nat
  tbl : PTab
  budget : Nat
  evs : List TlbEvent

def __arm_lpae_unmap (data : ArmLpaeData) (iova size : Nat) :
    (lvl : Nat) → (tbl : PTab) → (budget : Nat) → (fuel : Nat) → UnmapRes :=
  fun lvl tbl budget fuel =>
  let blk_size := ARM_LPAE_BLOCK_SIZE lvl data
  let idx := ARM_LPAE_LVL_IDX iova lvl data
  let slot := readSlot tbl idx
  let pte := slot.1
  -- WARN_ON(!pte || lvl == ARM_LPAE_MAX_LEVELS): every entry point starts
  -- at level at most 3, so on reachable calls lvl can only reach 4 and the
  -- comparison below agrees with the equality test of the source
  if pte = 0 ∨ ARM_LPAE_MAX_LEVELS ≤ lvl then ⟨0, tbl, budget, []⟩
  else if size = blk_size then
    ⟨size, writeSlot tbl idx (0, none), budget, [TlbEvent.flush_pgtable 8]⟩
  else if lvl = ARM_LPAE_MAX_LEVELS - 2 ∧ ¬ iopte_leaf pte lvl then
    let tl_offset := ARM_LPAE_LVL_IDX iova (lvl + 1) data
    let entry_size := 1 <<< data.pg_shift
    let max_entries := ARM_LPAE_BLOCK_SIZE lvl data / entry_size
    let entries := min (size / entry_size) (max_entries - tl_offset)
    let table_len := entries * 8
    let table2 := match slot.2 with
      | some table => some (zeroRange table tl_offset entries)
      | none => none
    let desc2 := iopte_tblcnt_sub pte entries
    if iopte_tblcnt desc2 = 0 then
      ⟨entries * entry_size, writeSlot tbl idx (0, none), budget,
        [TlbEvent.flush_pgtable table_len, TlbEvent.flush_pgtable 8]⟩
    else
      ⟨entries * entry_size, writeSlot tbl idx (desc2, table2), budget,
        [TlbEvent.flush_pgtable table_len]⟩
  else if iopte_leaf pte lvl then
    let r := arm_lpae_split_blk_unmap data iova size (iopte_prot pte) lvl slot
      budget blk_size
    ⟨r.bytes, writeSlot tbl idx r.slot, r.budget, r.evs⟩
  else
    match fuel with
    | 0 => ⟨0, tbl, budget, []⟩
    | fuel + 1 =>
      match slot.2 with
      | some child =>
          let r := __arm_lpae_unmap data iova size (lvl + 1) child budget fuel
          ⟨r.bytes, writeSlot tbl idx (slot.1, some r.tbl), r.budget, r.evs⟩
      | none =>
          -- dereference outside the model: the next level reads zeroes and
          -- the WARN path returns 0
          ⟨0, tbl, budget, []⟩

def arm_lpae_unmap_loop (data : ArmLpaeData) (size : Nat) :
    Nat → PTab → Nat → Nat → Nat → List TlbEvent → (Nat × PTab × Nat × List TlbEvent)
  | 0, t, _, unmapped, budget, evs => (unmapped, t, budget, evs)
  | fuel + 1, t, iova, unmapped, budget, evs =>
    if size ≤ unmapped then (unmapped, t, budget, evs)
    else
      let remaining := size - unmapped
      let size_to_unmap := if remaining < SZ_2M then remaining
        else iommu_pgsize data.cfg.pgsize_bitmap iova remaining
      let r := __arm_lpae_unmap data iova size_to_unmap (ARM_LPAE_START_LVL data) t
        budget ARM_LPAE_MAX_LEVELS
      if r.bytes = 0 then (unmapped, r.tbl, r.budget, evs ++ r.evs)
      else arm_lpae_unmap_loop data size fuel r.tbl (iova + r.bytes)
        (unmapped + r.bytes) r.budget (evs ++ r.evs)

def arm_lpae_unmap (data : ArmLpaeData) (t : PTab) (iova size : Nat)
    (budget : Nat) : Nat × PTab × Nat × List TlbEvent :=
  let r := arm_lpae_unmap_loop data size (size + 1) t iova 0 budget []
  if r.1 ≠ 0 then (r.1, r.2.1, r.2.2.1, r.2.2.2 ++ [TlbEvent.tlb_flush_all])
  else r

/-! The scatter-gather mapper. -/

/-- One scatterlist entry: the physical address of its page and the
offset/length pair (page_to_phys(sg_page(s)), s->offset, s->length). -/
structure ScatterEntry where
  page_phys : Nat
  offset : Nat
  length : Nat
deriving DecidableEq, Repr

def readAtPath (t : PTab) : List Nat → Option (Iopte × Option PTab)
  | [] => none
  | [i] => some (readSlot t i)
  | i :: rest =>
    match (readSlot t i).2 with
    | some c => readAtPath c rest
    | none => none

def updateAtPath (t : PTab) : List Nat → ((Iopte × Option PTab) → (Iopte × Option PTab)) → PTab
  | [], _ => t
  | [i], f => writeSlot t i (f (readSlot t i))
  | i :: rest, f =>
    let s := readSlot t i
    match s.2 with
    | some c => writeSlot t i (s.1, some (updateAtPath c rest f))
    | none => t

/-- The fast path of map_sg: write the next page leaf directly into the
level-3 table of the open batch (no publish) and bump the counter of the
slot referencing it, exactly what arm_lpae_init_pte does with the saved
ms pointers. -/
def map_sg_fast_install (data : ArmLpaeData) (t : PTab) (path : List Nat)
    (iova phys : Nat) (prot : Iopte) : Int × PTab :=
  let idx3 := ARM_LPAE_LVL_IDX iova MAP_STATE_LVL data
  match readAtPath t path with
  | some (desc, some childT) =>
    let slot3 := readSlot childT idx3
    let r := arm_lpae_init_pte data iova phys prot MAP_STATE_LVL slot3 false
    if r.1 = 0 then
      (0, updateAtPath t path
        (fun _ => (iopte_tblcnt_add desc 1, some (writeSlot childT idx3 r.2.1))))
    else (r.1, t)
  | _ => (-EINVAL, t)  -- unreachable: the path was recorded walking this tree

structure SgState where
  t : PTab
  ms : MapState
  iova : Nat
  phys : Nat
  size : Nat
  mapped : Nat
  budget : Nat
  evs : List TlbEvent
  err : Int

def sgAdvance (st : SgState) (t2 : PTab) (ms2 : MapState) (budget2 : Nat)
    (evs2 : List TlbEvent) (pgsize : Nat) : SgState :=
  { st with
    t := t2
    ms := ms2
    budget := budget2
    evs := evs2
    iova := st.iova + pgsize
    phys := st.phys + pgsize
    size := st.size - pgsize
    mapped := st.mapped + pgsize }

def arm_lpae_map_sg_loop (data : ArmLpaeData) (prot : Iopte) :
    Nat → SgState → SgState
  | 0, st => st
  | fuel + 1, st =>
    if st.size = 0 then st
    else
      let pgsize := iommu_pgsize data.cfg.pgsize_bitmap (st.iova ||| st.phys) st.size
      if pgsize = 0 then { st with err := -EINVAL }
      else
        let fast := match st.ms.pgtable_path with
          | some _ => decide (st.iova < st.ms.iova_end)
          | none => false
        if fast then
          match st.ms.pgtable_path with
          | some path =>
            let r := map_sg_fast_install data st.t path st.iova st.phys prot
            if r.1 ≠ 0 then { st with t := r.2, err := r.1 }
            else
              arm_lpae_map_sg_loop data prot fuel
                (sgAdvance st r.2 { st.ms with num_pte := st.ms.num_pte + 1 }
                  st.budget st.evs pgsize)
          | none => { st with err := -EINVAL }
        else
          let r := __arm_lpae_map data st.iova st.phys pgsize prot
            (ARM_LPAE_START_LVL data) st.t [] (some st.ms) st.budget
            ARM_LPAE_MAX_LEVELS
          if r.ret ≠ 0 then
            { st with
              t := r.tbl
              ms := r.ms.getD mapStateCleared
              budget := r.budget
              evs := st.evs ++ r.evs
              err := r.ret }
          else
            arm_lpae_map_sg_loop data prot fuel
              (sgAdvance st r.tbl (r.ms.getD mapStateCleared) r.budget
                (st.evs ++ r.evs) pgsize)

structure MapSgRes where
  ret : Nat
  size_out : Option Nat
  tbl : PTab
  evs : List TlbEvent

def arm_lpae_map_sg_chunks (data : ArmLpaeData) (prot : Iopte) (min_pagesz : Nat) :
    List ScatterEntry → PTab → MapState → Nat → Nat → Nat → List TlbEvent → MapSgRes
  | [], t, ms, _iova, mapped, _budget, evs =>
    let evs2 := if ms.pgtable_path.isSome then
        evs ++ [TlbEvent.flush_pgtable (ms.num_pte * 8)] else evs
    ⟨mapped, none, t, evs2⟩
  | sgl :: rest, t, ms, iova, mapped, budget, evs =>
    let phys := sgl.page_phys + sgl.offset
    if ¬ (sgl.offset % min_pagesz = 0) then
      ⟨0, some mapped, t, evs⟩
    else
      let st := arm_lpae_map_sg_loop data prot sgl.length
        ⟨t, ms, iova, phys, sgl.length, mapped, budget, evs, 0⟩
      if st.err ≠ 0 then
        ⟨0, some st.mapped, st.t, st.evs⟩
      else
        arm_lpae_map_sg_chunks data prot min_pagesz rest st.t st.ms st.iova st.mapped
          st.budget st.evs

def arm_lpae_map_sg (data : ArmLpaeData) (t : PTab) (iova : Nat)
    (sg : List ScatterEntry) (iommu_prot : IommuProt) (budget : Nat) : MapSgRes :=
  if ¬ (iommu_prot.read = true ∨ iommu_prot.write = true) then
    ⟨0, some 0, t, []⟩
  else
    let prot := arm_lpae_prot_to_pte data iommu_prot
    let min_pagesz := 1 <<< __ffs data.cfg.pgsize_bitmap
    arm_lpae_map_sg_chunks data prot min_pagesz sg t mapStateCleared iova 0 budget []

/-! Shared concrete instances for witnesses: the Stage-1 data produced by
arm_64_lpae_alloc_pgtable_s1 on cfg (quirk off, bitmap 4K|2M|1G, ias 48,
oas 48), and a read+write protection set. -/

def dS1 : ArmLpaeData :=
  ⟨IoPgtableFmt.ARM_64_LPAE_S1, ⟨false, 1075843072, 48, 48⟩, 4, 4096, 12, 9⟩

def protRW : IommuProt := ⟨true, true, false, false, false, false⟩

/-- A tree holding one 2 MiB block at iova 0x40000000 (pa 0x80000000). -/
def t2M_dS1 : PTab :=
  (arm_lpae_map dS1 (arm_lpae_pgd dS1) 0x40000000 0x80000000 0x200000 protRW 10).2.1

/-- A tree holding one 4 KiB page at iova 0x1234000 (pa 0x5678000). -/
def mappedPage_dS1 : PTab :=
  (arm_lpae_map dS1 (arm_lpae_pgd dS1) 0x1234000 0x5678000 0x1000 protRW 10).2.1

/-- The scatterlist of the C6 counterexample: an aligned page chunk
followed by a chunk whose offset breaks the minimum-page alignment. -/
def sgMis : List ScatterEntry := [⟨0x111000, 0, 0x1000⟩, ⟨0x222000, 0x80, 0x1000⟩]

/-! The path predicate: the walk from the given level down to the level
where the new entry will live crosses only genuine table descriptors that
own their child, inside tables long enough for the index, and finds a
clear slot at the target level (or earlier: a clear slot means every
deeper table will be freshly allocated and zero-filled). This is the
structural reading of "the range is unmapped" for one block-sized range,
as every address of the range shares this path. -/
def pathClear (data : ArmLpaeData) : Nat → PTab → Nat → Nat → Nat → Bool
  | 0, _, _, _, _ => false
  | fuel + 1, t, iova, lvl, lstar =>
    decide (ARM_LPAE_LVL_IDX iova lvl data < t.slots.length) &&
    (if lvl = lstar then (readSlot t (ARM_LPAE_LVL_IDX iova lvl data)).1 == 0
     else if (readSlot t (ARM_LPAE_LVL_IDX iova lvl data)).1 == 0 then true
     else ((readSlot t (ARM_LPAE_LVL_IDX iova lvl data)).1 &&& 3 == 3) &&
       (match (readSlot t (ARM_LPAE_LVL_IDX iova lvl data)).2 with
        | some c => pathClear data fuel c iova (lvl + 1) lstar
        | none => false))

/-! The counter invariant (spec P1/I2): every table descriptor at the
penultimate level stores, in its hidden counter field, the number of
non-zero entries of the child table it references. wfCnt packages it with
the structural well-formedness the code maintains: zero slots own no
child, every non-zero descriptor carries the valid bit, table descriptors
have type 3 and own a child of the granule's size. -/

/-- Disjoint bit fields combined with a bitwise or add up: the low field
fits below bit i and the high part is a multiple of 2^i. -/
theorem lor_eq_add_of_mod {a b : Nat} (i : Nat) (ha : a % 2 ^ i = 0) (hb : b < 2 ^ i) :
    a ||| b = a + b := by
  have h2 : 2 ^ i * (a / 2 ^ i) = a := Nat.mul_div_cancel' (Nat.dvd_of_mod_eq_zero ha)
  calc a ||| b = 2 ^ i * (a / 2 ^ i) ||| b := by rw [h2]
    _ = 2 ^ i * (a / 2 ^ i) + b := (Nat.mul_add_lt_is_or hb _).symm
    _ = a + b := by rw [h2]

theorem land_two_pow_eq_zero {x n : Nat} (h : x.testBit n = false) : x &&& 2 ^ n = 0 := by
  apply Nat.eq_of_testBit_eq
  intro i
  rw [Nat.testBit_and, Nat.zero_testBit]
  rcases eq_or_ne n i with rfl | hne
  · simp [h]
  · simp [Nat.testBit_two_pow_of_ne hne]

theorem testBit_of_land_two_pow_ne_zero {x n : Nat} (h : x &&& 2 ^ n ≠ 0) :
    x.testBit n = true := by
  by_contra hb
  exact h (land_two_pow_eq_zero (Bool.eq_false_iff.mpr hb))

theorem land_two_pow_ne_zero_of_testBit {x n : Nat} (h : x.testBit n = true) :
    x &&& 2 ^ n ≠ 0 := by
  intro h0
  have h1 := congrArg (fun y => Nat.testBit y n) h0
  simp [Nat.testBit_and, h, Nat.testBit_two_pow_self] at h1

/-! Characterisations of the fuel-based kernel helpers. -/

theorem __ffs_aux_eq : ∀ (fuel k n : Nat), k < fuel → n.testBit k = true →
    (∀ j, j < k → n.testBit j = false) → __ffs_aux fuel n = k
  | 0, k, _, hk, _, _ => absurd hk (Nat.not_lt_zero k)
  | fuel + 1, 0, n, _, hbit, _ => by
      have h1 : n % 2 = 1 := by simpa using hbit
      simp [__ffs_aux, h1]
  | fuel + 1, k + 1, n, hk, hbit, hlow => by
      have h0 : n.testBit 0 = false := hlow 0 (Nat.succ_pos k)
      have h2 : n % 2 = 0 := by
        have := h0
        simp only [Nat.testBit_zero, decide_eq_false_iff_not] at this
        omega
      have hne : n ≠ 0 := by
        intro h
        rw [h, Nat.zero_testBit] at hbit
        exact Bool.false_ne_true hbit
      have hr : __ffs_aux fuel (n / 2) = k :=
        __ffs_aux_eq fuel k (n / 2) (Nat.lt_of_succ_lt_succ hk)
          (by rw [Nat.testBit_div_two]; exact hbit)
          (fun j hj => by rw [Nat.testBit_div_two]; exact hlow (j + 1) (Nat.succ_lt_succ hj))
      simp [__ffs_aux, hne, h2, hr]

theorem __ffs_aux_spec : ∀ (fuel n : Nat), n ≠ 0 → n < 2 ^ fuel →
    n.testBit (__ffs_aux fuel n) = true ∧
      ∀ j, j < __ffs_aux fuel n → n.testBit j = false
  | 0, n, hne, hlt => absurd (Nat.lt_one_iff.mp hlt) hne
  | fuel + 1, n, hne, hlt => by
      by_cases hodd : n % 2 = 1
      · constructor
        · simp [__ffs_aux, hodd, Nat.testBit_zero]
        · intro j hj
          simp [__ffs_aux, hodd] at hj
      · have h2 : n % 2 = 0 := by omega
        have hhalf : n / 2 ≠ 0 := by omega
        have hhlt : n / 2 < 2 ^ fuel := by
          rw [pow_succ] at hlt
          omega
        obtain ⟨ih1, ih2⟩ := __ffs_aux_spec fuel (n / 2) hhalf hhlt
        have heq : __ffs_aux (fuel + 1) n = __ffs_aux fuel (n / 2) + 1 := by
          simp [__ffs_aux, hne, hodd]
        refine ⟨?_, ?_⟩
        · rw [heq, ← Nat.testBit_div_two]
          exact ih1
        · intro j hj
          rw [heq] at hj
          match j with
          | 0 => simp [Nat.testBit_zero, h2]
          | j + 1 =>
              rw [← Nat.testBit_div_two]
              exact ih2 j (by omega)

theorem ilog2_aux_eq : ∀ (fuel k n : Nat), k < fuel → 2 ^ k ≤ n → n < 2 ^ (k + 1) →
    ilog2_aux fuel n = k
  | 0, k, _, hk, _, _ => absurd hk (Nat.not_lt_zero k)
  | fuel + 1, 0, n, _, _, hhi => by
      have : ¬ 2 ≤ n := by
        norm_num at hhi
        omega
      simp [ilog2_aux, this]
  | fuel + 1, k + 1, n, hk, hlo, hhi => by
      have h2 : 2 ≤ n := by
        have h21 : 2 ^ 1 ≤ 2 ^ (k + 1) := Nat.pow_le_pow_right (by norm_num) (by omega)
        simp only [pow_one] at h21
        omega
      have hlo2 : 2 ^ k ≤ n / 2 := by
        rw [Nat.le_div_iff_mul_le (by norm_num)]
        rw [pow_succ] at hlo
        omega
      have hhi2 : n / 2 < 2 ^ (k + 1) := by
        rw [Nat.div_lt_iff_lt_mul (by norm_num)]
        rw [pow_succ] at hhi
        omega
      have hr : ilog2_aux fuel (n / 2) = k :=
        ilog2_aux_eq fuel k (n / 2) (Nat.lt_of_succ_lt_succ hk) hlo2 hhi2
      simp [ilog2_aux, h2, hr]

theorem ilog2_aux_lt : ∀ (fuel n m : Nat), 0 < m → n < 2 ^ m → ilog2_aux fuel n < m
  | 0, _, m, hm, _ => by simpa [ilog2_aux] using hm
  | fuel + 1, n, m, hm, hn => by
      by_cases h2 : 2 ≤ n
      · have hm2 : 2 ≤ m := by
          by_contra hc
          have : m = 1 := by omega
          rw [this, pow_one] at hn
          omega
        have hrec : ilog2_aux fuel (n / 2) < m - 1 := by
          apply ilog2_aux_lt fuel (n / 2) (m - 1) (by omega)
          have : 2 ^ m = 2 * 2 ^ (m - 1) := by
            conv_lhs => rw [show m = 1 + (m - 1) by omega]
            rw [pow_add, pow_one]
          omega
        simp only [ilog2_aux, if_pos h2]
        omega
      · simp only [ilog2_aux, if_neg h2]
        exact hm

/-- A power of two written with a shift. -/
theorem one_shiftLeft_eq (k : Nat) : 1 <<< k = 2 ^ k := by
  rw [Nat.shiftLeft_eq, one_mul]

theorem testBit_not64 {m i : Nat} (hm : m < 2 ^ 64) (hi : i < 64) :
    (not64 m).testBit i = ! m.testBit i := by
  rw [not64, U64_ONES, Nat.testBit_xor, Nat.testBit_two_pow_sub_one]
  simp [hi]

/-! Analysis of arm_lpae_restrict_pgsizes and arm_lpae_alloc_pgtable:
the granule chosen on a successful construction is 4K, 16K or 64K, and
the derived geometry fields satisfy their defining equations. -/

theorem restrict_granule_4k {bitmap : Nat} (h : arm_lpae_restrict_granule bitmap = SZ_4K) :
    bitmap.testBit 12 = true := by
  rw [arm_lpae_restrict_granule] at h
  split_ifs at h with h1 h2 h3
  · exact testBit_of_land_two_pow_ne_zero (by exact_mod_cast h1)
  · exfalso
    have hlt : bitmap &&& PAGE_MASK_LOW < 2 ^ 12 :=
      Nat.and_lt_two_pow bitmap (by norm_num [PAGE_MASK_LOW, PAGE_SIZE])
    have hfl : __fls (bitmap &&& PAGE_MASK_LOW) < 12 :=
      ilog2_aux_lt 64 _ 12 (by norm_num) hlt
    rw [one_shiftLeft_eq] at h
    have : (2 : Nat) ^ __fls (bitmap &&& PAGE_MASK_LOW) < 2 ^ 12 :=
      Nat.pow_lt_pow_right (by norm_num) hfl
    rw [h] at this
    norm_num [SZ_4K] at this
  · have hlt : bitmap &&& not64 PAGE_MASK_LOW < 2 ^ 64 := by
      apply Nat.and_lt_two_pow
      apply Nat.xor_lt_two_pow (by norm_num [U64_ONES]) (by norm_num [PAGE_MASK_LOW, PAGE_SIZE])
    obtain ⟨hs1, _⟩ := __ffs_aux_spec 64 _ h3 hlt
    rw [one_shiftLeft_eq] at h
    have h12 : __ffs (bitmap &&& not64 PAGE_MASK_LOW) = 12 := by
      have : SZ_4K = 2 ^ 12 := by norm_num [SZ_4K]
      rw [this] at h
      exact Nat.pow_right_injective (by norm_num) h
    rw [__ffs] at h12
    rw [h12] at hs1
    rw [Nat.testBit_and] at hs1
    exact (Bool.and_eq_true_iff.mp hs1).1
  · norm_num [SZ_4K] at h

theorem restrict_granule_16k {bitmap : Nat} (h : arm_lpae_restrict_granule bitmap = SZ_16K) :
    bitmap.testBit 14 = true := by
  rw [arm_lpae_restrict_granule] at h
  split_ifs at h with h1 h2 h3
  · norm_num [PAGE_SIZE, SZ_16K] at h
  · exfalso
    have hlt : bitmap &&& PAGE_MASK_LOW < 2 ^ 12 :=
      Nat.and_lt_two_pow bitmap (by norm_num [PAGE_MASK_LOW, PAGE_SIZE])
    have hfl : __fls (bitmap &&& PAGE_MASK_LOW) < 12 :=
      ilog2_aux_lt 64 _ 12 (by norm_num) hlt
    rw [one_shiftLeft_eq] at h
    have : (2 : Nat) ^ __fls (bitmap &&& PAGE_MASK_LOW) < 2 ^ 12 :=
      Nat.pow_lt_pow_right (by norm_num) hfl
    rw [h] at this
    norm_num [SZ_16K] at this
  · have hlt : bitmap &&& not64 PAGE_MASK_LOW < 2 ^ 64 := by
      apply Nat.and_lt_two_pow
      apply Nat.xor_lt_two_pow (by norm_num [U64_ONES]) (by norm_num [PAGE_MASK_LOW, PAGE_SIZE])
    obtain ⟨hs1, _⟩ := __ffs_aux_spec 64 _ h3 hlt
    rw [one_shiftLeft_eq] at h
    have h14 : __ffs (bitmap &&& not64 PAGE_MASK_LOW) = 14 := by
      have : SZ_16K = 2 ^ 14 := by norm_num [SZ_16K]
      rw [this] at h
      exact Nat.pow_right_injective (by norm_num) h
    rw [__ffs] at h14
    rw [h14] at hs1
    rw [Nat.testBit_and] at hs1
    exact (Bool.and_eq_true_iff.mp hs1).1
  · norm_num [SZ_16K] at h

theorem restrict_granule_64k {bitmap : Nat} (h : arm_lpae_restrict_granule bitmap = SZ_64K) :
    bitmap.testBit 16 = true := by
  rw [arm_lpae_restrict_granule] at h
  split_ifs at h with h1 h2 h3
  · norm_num [PAGE_SIZE, SZ_64K] at h
  · exfalso
    have hlt : bitmap &&& PAGE_MASK_LOW < 2 ^ 12 :=
      Nat.and_lt_two_pow bitmap (by norm_num [PAGE_MASK_LOW, PAGE_SIZE])
    have hfl : __fls (bitmap &&& PAGE_MASK_LOW) < 12 :=
      ilog2_aux_lt 64 _ 12 (by norm_num) hlt
    rw [one_shiftLeft_eq] at h
    have : (2 : Nat) ^ __fls (bitmap &&& PAGE_MASK_LOW) < 2 ^ 12 :=
      Nat.pow_lt_pow_right (by norm_num) hfl
    rw [h] at this
    norm_num [SZ_64K] at this
  · have hlt : bitmap &&& not64 PAGE_MASK_LOW < 2 ^ 64 := by
      apply Nat.and_lt_two_pow
      apply Nat.xor_lt_two_pow (by norm_num [U64_ONES]) (by norm_num [PAGE_MASK_LOW, PAGE_SIZE])
    obtain ⟨hs1, _⟩ := __ffs_aux_spec 64 _ h3 hlt
    rw [one_shiftLeft_eq] at h
    have h16 : __ffs (bitmap &&& not64 PAGE_MASK_LOW) = 16 := by
      have : SZ_64K = 2 ^ 16 := by norm_num [SZ_64K]
      rw [this] at h
      exact Nat.pow_right_injective (by norm_num) h
    rw [__ffs] at h16
    rw [h16] at hs1
    rw [Nat.testBit_and] at hs1
    exact (Bool.and_eq_true_iff.mp hs1).1
  · norm_num [SZ_64K] at h

theorem restrict_pgsizes_ias (cfg : IoPgtableCfg) :
    (arm_lpae_restrict_pgsizes cfg).ias = cfg.ias := rfl

theorem restrict_pgsizes_oas (cfg : IoPgtableCfg) :
    (arm_lpae_restrict_pgsizes cfg).oas = cfg.oas := rfl

/-- Shape of a successful arm_lpae_alloc_pgtable: the restricted config is
returned and every derived-geometry field satisfies its defining equation. -/
theorem arm_lpae_alloc_pgtable_eq {fmt : IoPgtableFmt} {cfg0 cfg : IoPgtableCfg}
    {d : ArmLpaeData} (h : arm_lpae_alloc_pgtable fmt cfg0 = some (cfg, d)) :
    cfg = arm_lpae_restrict_pgsizes cfg0 ∧
    cfg.pgsize_bitmap &&& (SZ_4K ||| SZ_16K ||| SZ_64K) ≠ 0 ∧
    cfg.ias ≤ ARM_LPAE_MAX_ADDR_BITS ∧ cfg.oas ≤ ARM_LPAE_MAX_ADDR_BITS ∧
    d.fmt = fmt ∧ d.cfg = cfg ∧
    d.pg_shift = __ffs cfg.pgsize_bitmap ∧
    d.bits_per_level = d.pg_shift - 3 ∧
    d.levels = DIV_ROUND_UP (cfg.ias - d.pg_shift) d.bits_per_level ∧
    d.pgd_size = 1 <<< ((cfg.ias - d.pg_shift) - d.bits_per_level * (d.levels - 1) + 3) := by
  rw [arm_lpae_alloc_pgtable] at h
  split_ifs at h with h1 h2 h3
  rw [Option.some.injEq, Prod.mk.injEq] at h
  obtain ⟨rfl, rfl⟩ := h
  push_neg at h2 h3
  refine ⟨rfl, h1, by omega, by omega, rfl, rfl, rfl, ?_, rfl, rfl⟩
  show __ffs _ - ilog2 8 = __ffs _ - 3
  norm_num [show ilog2 8 = 3 from by decide]

/-- On any successful construction the granule is 4K, 16K or 64K. -/
theorem arm_lpae_alloc_pg_shift {fmt : IoPgtableFmt} {cfg0 cfg : IoPgtableCfg}
    {d : ArmLpaeData} (h : arm_lpae_alloc_pgtable fmt cfg0 = some (cfg, d)) :
    d.pg_shift = 12 ∨ d.pg_shift = 14 ∨ d.pg_shift = 16 := by
  obtain ⟨hcfg, hnz, _, _, _, _, hpg, _, _, _⟩ := arm_lpae_alloc_pgtable_eq h
  subst hcfg
  rw [arm_lpae_restrict_pgsizes] at hpg hnz
  simp only at hpg hnz
  split_ifs at hpg hnz with hg1 hg2 hg3
  · left
    rw [hpg, __ffs]
    apply __ffs_aux_eq 64 12 _ (by norm_num)
    · rw [Nat.testBit_and, restrict_granule_4k hg1]
      decide
    · intro j hj
      rw [Nat.testBit_and]
      have : (SZ_4K ||| SZ_2M ||| SZ_1G).testBit j = false := by
        revert hj
        revert j
        decide
      simp [this]
  · right; left
    rw [hpg, __ffs]
    apply __ffs_aux_eq 64 14 _ (by norm_num)
    · rw [Nat.testBit_and, restrict_granule_16k hg2]
      decide
    · intro j hj
      rw [Nat.testBit_and]
      have : (SZ_16K ||| SZ_32M).testBit j = false := by
        revert hj
        revert j
        decide
      simp [this]
  · right; right
    rw [hpg, __ffs]
    apply __ffs_aux_eq 64 16 _ (by norm_num)
    · rw [Nat.testBit_and, restrict_granule_64k hg3]
      decide
    · intro j hj
      rw [Nat.testBit_and]
      have : (SZ_64K ||| SZ_512M).testBit j = false := by
        revert hj
        revert j
        decide
    -- close
      simp [this]
  · simp at hnz

theorem or_low_mask {C x : Nat} (hC : C % 64 = 0) (hx : x < 64) : (C ||| x) &&& 63 = x := by
  have hadd : C ||| x = C + x :=
    lor_eq_add_of_mod 6 (by simpa using hC) (by simpa using hx)
  rw [hadd, show (63 : Nat) = 2 ^ 6 - 1 by norm_num, Nat.and_pow_two_sub_one_eq_mod,
    show (2 : Nat) ^ 6 = 64 by norm_num]
  omega

theorem or_low_shiftRight {C x k : Nat} (hC : C % 64 = 0) (hx : x < 64) (hk : 6 ≤ k) :
    (C ||| x) >>> k = C >>> k := by
  have hadd : C ||| x = C + x :=
    lor_eq_add_of_mod 6 (by simpa using hC) (by simpa using hx)
  rw [hadd, Nat.shiftRight_eq_div_pow, Nat.shiftRight_eq_div_pow]
  have hdecomp : (2 : Nat) ^ k = 2 ^ 6 * 2 ^ (k - 6) := by
    rw [← pow_add]
    congr 1
    omega
  rw [hdecomp, ← Nat.div_div_eq_div_mul, ← Nat.div_div_eq_div_mul]
  congr 1
  rw [show (2 : Nat) ^ 6 = 64 by norm_num]
  omega

/-- The data produced by the stage-2 constructor is the allocator geometry
after the concatenation step, and the restricted config is returned. -/
theorem arm_64_lpae_alloc_pgtable_s2_data {cfg cfg2 : IoPgtableCfg} {d : ArmLpaeData}
    {s2 : ArmLpaeS2Cfg} (h : arm_64_lpae_alloc_pgtable_s2 cfg = some (cfg2, d, s2)) :
    ∃ dA, arm_lpae_alloc_pgtable IoPgtableFmt.ARM_64_LPAE_S2 cfg = some (cfg2, dA) ∧
      d = arm_lpae_concat_pgd dA := by
  rw [arm_64_lpae_alloc_pgtable_s2] at h
  rcases halloc : arm_lpae_alloc_pgtable IoPgtableFmt.ARM_64_LPAE_S2 cfg with _ | ⟨cfgA, dA⟩
  · rw [halloc] at h
    simp at h
  · rw [halloc] at h
    rcases hps : ARM_LPAE_TCR_PS_OF_OAS cfgA.oas with _ | ps
    · simp [hps] at h
    · simp only [Option.bind_eq_bind, Option.some_bind, hps] at h
      rw [Option.some.injEq, Prod.mk.injEq, Prod.mk.injEq] at h
      obtain ⟨h1, h2, _⟩ := h
      refine ⟨dA, ?_, h2.symm⟩
      rw [h1]

theorem arm_lpae_concat_pgd_pg_shift (data : ArmLpaeData) :
    (arm_lpae_concat_pgd data).pg_shift = data.pg_shift := by
  simp only [arm_lpae_concat_pgd]
  split_ifs <;> rfl

theorem arm_lpae_concat_pgd_no {data : ArmLpaeData}
    (h : ¬ (data.levels = ARM_LPAE_MAX_LEVELS ∧
            data.pgd_size >>> ilog2 8 ≤ ARM_LPAE_S2_MAX_CONCAT_PAGES)) :
    arm_lpae_concat_pgd data = data := by
  simp only [arm_lpae_concat_pgd]
  split_ifs with h1 h2
  · exact absurd ⟨h1, h2⟩ h
  · rfl
  · rfl

/-- C5, corrected form. For the stage-2 64-bit allocator with ias = 48 and
a 4 KiB granule the level count stays 4 and the pgd is a single 4 KiB page:
the level-0 table would need 512 level-1 pages, far above the 16-page
concatenation limit, so no concatenation happens. Concatenation does fire
when the level-0 table is small enough, e.g. at ias = 40 the root widens to
two pages (8 KiB) and the reported depth drops to 3 levels. -/
theorem C5_stage2_concat :
    (∀ cfg cfg2 d s2, arm_64_lpae_alloc_pgtable_s2 cfg = some (cfg2, d, s2) →
        cfg.ias = 48 → d.pg_shift = 12 → d.pgd_size = 4096 ∧ d.levels = 4) ∧
    (arm_64_lpae_alloc_pgtable_s2 ⟨false, 0x40201000, 40, 48⟩).map
        (fun r => (r.2.1.pgd_size, r.2.1.levels)) = some (8192, 3) := by
  constructor
  · intro cfg cfg2 d s2 h hias hpg
    obtain ⟨dA, halloc, hconcat⟩ := arm_64_lpae_alloc_pgtable_s2_data h
    obtain ⟨hcfg, hnz, hi48, ho48, hfmt, hdcfg, hpgs, hbpl, hlvl, hpgd⟩ :=
      arm_lpae_alloc_pgtable_eq halloc
    have hias2 : cfg2.ias = 48 := by rw [hcfg, restrict_pgsizes_ias, hias]
    have hpgA : dA.pg_shift = 12 := by
      rw [hconcat, arm_lpae_concat_pgd_pg_shift] at hpg
      exact hpg
    have hlvlA : dA.levels = 4 := by
      rw [hlvl, hias2, hpgA, hbpl, hpgA]
      decide
    have hpgdA : dA.pgd_size = 4096 := by
      rw [hpgd, hias2, hpgA, hbpl, hpgA, hlvlA]
      decide
    have heq : arm_lpae_concat_pgd dA = dA :=
      arm_lpae_concat_pgd_no (fun hc => absurd hc.2 (by rw [hpgdA]; decide))
    rw [hconcat, heq, hpgdA, hlvlA]
    exact ⟨rfl, rfl⟩
  · decide

/-- C5 counterexample: at ias = 48 with the 4 KiB granule family the
stage-2 constructor reports a 4 KiB root and 4 levels, not the 64 KiB
root and 3 levels the claim states. -/
theorem C5_stage2_concat_cex :
    (arm_64_lpae_alloc_pgtable_s2 ⟨false, 0x40201000, 48, 48⟩).map
        (fun r => (r.2.1.pgd_size, r.2.1.levels)) = some (4096, 4) ∧
    ¬ (arm_64_lpae_alloc_pgtable_s2 ⟨false, 0x40201000, 48, 48⟩).map
        (fun r => (r.2.1.pgd_size, r.2.1.levels)) = some (65536, 3) := by
  constructor
  · decide
  · decide

/-- C5 witness: the corrected statement applied at ias = 48, oas = 48 with
the 4K page-size family. -/
theorem C5_stage2_concat_witness :
    ({ fmt := IoPgtableFmt.ARM_64_LPAE_S2, cfg := ⟨false, 1075843072, 48, 48⟩,
       levels := 4, pgd_size := 4096, pg_shift := 12,
       bits_per_level := 9 } : ArmLpaeData).pgd_size = 4096 ∧
    ({ fmt := IoPgtableFmt.ARM_64_LPAE_S2, cfg := ⟨false, 1075843072, 48, 48⟩,
       levels := 4, pgd_size := 4096, pg_shift := 12,
       bits_per_level := 9 } : ArmLpaeData).levels = 4 :=
  C5_stage2_concat.1 ⟨false, 0x40201000, 48, 48⟩ ⟨false, 1075843072, 48, 48⟩
    ⟨IoPgtableFmt.ARM_64_LPAE_S2, ⟨false, 1075843072, 48, 48⟩, 4, 4096, 12, 9⟩
    ⟨2147825040⟩ (by decide) rfl rfl

/-- The four TCR fields of interest of a word C + T0SZ, where C keeps the
low six bits clear and T0SZ fits in them. -/
theorem tcr_fields_spec {C ias : Nat} (hC64 : C % 64 = 0) (h1 : 1 ≤ ias) :
    TCR_FIELD_T0SZ (C ||| (64 - ias)) = 64 - ias ∧
    TCR_FIELD_EPD1 (C ||| (64 - ias)) = (C >>> 23) &&& 1 ∧
    TCR_FIELD_SH0 (C ||| (64 - ias)) = (C >>> 12) &&& 3 ∧
    TCR_FIELD_TG0 (C ||| (64 - ias)) = (C >>> 14) &&& 3 ∧
    TCR_FIELD_IPS (C ||| (64 - ias)) = (C >>> 32) &&& 7 := by
  have hx : 64 - ias < 64 := by omega
  refine ⟨?_, ?_, ?_, ?_, ?_⟩
  · show ((C ||| (64 - ias)) >>> 0) &&& 63 = 64 - ias
    rw [Nat.shiftRight_zero]
    exact or_low_mask hC64 hx
  · show ((C ||| (64 - ias)) >>> 23) &&& 1 = (C >>> 23) &&& 1
    rw [or_low_shiftRight hC64 hx (by norm_num)]
  · show ((C ||| (64 - ias)) >>> 12) &&& 3 = (C >>> 12) &&& 3
    rw [or_low_shiftRight hC64 hx (by norm_num)]
  · show ((C ||| (64 - ias)) >>> 14) &&& 3 = (C >>> 14) &&& 3
    rw [or_low_shiftRight hC64 hx (by norm_num)]
  · show ((C ||| (64 - ias)) >>> 32) &&& 7 = (C >>> 32) &&& 7
    rw [or_low_shiftRight hC64 hx (by norm_num)]

/-- C7, as stated. Every stage-1 64-bit construction that returns a handle
programs TCR with T0SZ = 64 - ias, EPD1 = fault, SH0 = inner shareable,
IPS = the encoding of oas, TG0 = the selector of the configured granule;
and for an oas outside {32, 36, 40, 42, 44, 48} construction returns null.
The single extra hypothesis 1 <= ias rules out the degenerate zero-width
input space, where 64 - ias does not fit the six-bit T0SZ field. -/
theorem C7_stage1_tcr :
    (∀ cfg cfg2 d s1, arm_64_lpae_alloc_pgtable_s1 cfg = some (cfg2, d, s1) →
        1 ≤ cfg.ias →
        TCR_FIELD_T0SZ s1.tcr = 64 - cfg.ias ∧
        TCR_FIELD_EPD1 s1.tcr = ARM_LPAE_TCR_EPD1_FAULT ∧
        TCR_FIELD_SH0 s1.tcr = ARM_LPAE_TCR_SH_IS ∧
        ARM_LPAE_TCR_PS_OF_OAS cfg.oas = some (TCR_FIELD_IPS s1.tcr) ∧
        TCR_FIELD_TG0 s1.tcr = ARM_LPAE_TCR_TG0_OF_GRANULE d.pg_shift) ∧
    (∀ cfg, ¬ (cfg.oas = 32 ∨ cfg.oas = 36 ∨ cfg.oas = 40 ∨ cfg.oas = 42 ∨
               cfg.oas = 44 ∨ cfg.oas = 48) →
        arm_64_lpae_alloc_pgtable_s1 cfg = none) := by
  constructor
  · intro cfg cfg2 d s1 h hias1
    rw [arm_64_lpae_alloc_pgtable_s1] at h
    rcases halloc : arm_lpae_alloc_pgtable IoPgtableFmt.ARM_64_LPAE_S1 cfg with _ | ⟨cfgA, dA⟩
    · rw [halloc] at h
      simp at h
    · rw [halloc] at h
      obtain ⟨hcfg, hnz, hi48, ho48, hfmt, hdcfg, hpgs, hbpl, hlvl, hpgd⟩ :=
        arm_lpae_alloc_pgtable_eq halloc
      have hoas : cfgA.oas = cfg.oas := by rw [hcfg, restrict_pgsizes_oas]
      have hiasA : cfgA.ias = cfg.ias := by rw [hcfg, restrict_pgsizes_ias]
      rcases hps : ARM_LPAE_TCR_PS_OF_OAS cfgA.oas with _ | ps
      · simp [hps] at h
      · have hps0 := hps
        simp only [Option.bind_eq_bind, Option.some_bind, hps] at h
        rw [Option.some.injEq, Prod.mk.injEq, Prod.mk.injEq] at h
        obtain ⟨hc2, hd, hs1⟩ := h
        have htcr : s1.tcr =
            (((if (1 <<< dA.pg_shift) = SZ_4K then
                 ((ARM_LPAE_TCR_SH_IS <<< ARM_LPAE_TCR_SH0_SHIFT) |||
                  (ARM_LPAE_TCR_RGN_NC <<< ARM_LPAE_TCR_IRGN0_SHIFT) |||
                  (ARM_LPAE_TCR_RGN_NC <<< ARM_LPAE_TCR_ORGN0_SHIFT)) ||| ARM_LPAE_TCR_TG0_4K
               else if (1 <<< dA.pg_shift) = SZ_16K then
                 ((ARM_LPAE_TCR_SH_IS <<< ARM_LPAE_TCR_SH0_SHIFT) |||
                  (ARM_LPAE_TCR_RGN_NC <<< ARM_LPAE_TCR_IRGN0_SHIFT) |||
                  (ARM_LPAE_TCR_RGN_NC <<< ARM_LPAE_TCR_ORGN0_SHIFT)) ||| ARM_LPAE_TCR_TG0_16K
               else if (1 <<< dA.pg_shift) = SZ_64K then
                 ((ARM_LPAE_TCR_SH_IS <<< ARM_LPAE_TCR_SH0_SHIFT) |||
                  (ARM_LPAE_TCR_RGN_NC <<< ARM_LPAE_TCR_IRGN0_SHIFT) |||
                  (ARM_LPAE_TCR_RGN_NC <<< ARM_LPAE_TCR_ORGN0_SHIFT)) ||| ARM_LPAE_TCR_TG0_64K
               else
                 ((ARM_LPAE_TCR_SH_IS <<< ARM_LPAE_TCR_SH0_SHIFT) |||
                  (ARM_LPAE_TCR_RGN_NC <<< ARM_LPAE_TCR_IRGN0_SHIFT) |||
                  (ARM_LPAE_TCR_RGN_NC <<< ARM_LPAE_TCR_ORGN0_SHIFT)))
              ||| (ps <<< ARM_LPAE_TCR_IPS_SHIFT))
             ||| ((64 - cfgA.ias) <<< ARM_LPAE_TCR_T0SZ_SHIFT))
            ||| (ARM_LPAE_TCR_EPD1_FAULT <<< ARM_LPAE_TCR_EPD1_SHIFT) := by
          rw [← hs1]
        have hre : ∀ a b e : Nat, ((a ||| b) ||| e) = ((a ||| e) ||| b) := fun a b e => by
          rw [Nat.or_assoc, Nat.or_comm b e, ← Nat.or_assoc]
        rw [hre, hiasA] at htcr
        have hshl : (64 - cfg.ias) <<< ARM_LPAE_TCR_T0SZ_SHIFT = 64 - cfg.ias :=
          Nat.shiftLeft_zero
        rw [hshl] at htcr
        have hdpg : d.pg_shift = dA.pg_shift := by rw [← hd]
        rw [hdpg]
        rcases arm_lpae_alloc_pg_shift halloc with hpg | hpg | hpg
        · rw [hpg] at htcr ⊢
          rw [if_pos (by decide)] at htcr
          rw [ARM_LPAE_TCR_PS_OF_OAS] at hps
          split_ifs at hps with c32 c36 c40 c42 c44 c48 <;>
          first
          | exact Option.noConfusion hps
          | ( rw [Option.some.injEq] at hps
              subst hps
              refine ⟨?_, ?_, ?_, ?_, ?_⟩
              · rw [htcr]
                exact (tcr_fields_spec (by decide) hias1).1
              · rw [htcr, (tcr_fields_spec (by decide) hias1).2.1]
                decide
              · rw [htcr, (tcr_fields_spec (by decide) hias1).2.2.1]
                decide
              · rw [← hoas, hps0, Option.some.injEq, htcr,
                  (tcr_fields_spec (by decide) hias1).2.2.2.2]
                decide
              · rw [htcr, (tcr_fields_spec (by decide) hias1).2.2.2.1]
                decide )
        · rw [hpg] at htcr ⊢
          rw [if_neg (by decide), if_pos (by decide)] at htcr
          rw [ARM_LPAE_TCR_PS_OF_OAS] at hps
          split_ifs at hps with c32 c36 c40 c42 c44 c48 <;>
          first
          | exact Option.noConfusion hps
          | ( rw [Option.some.injEq] at hps
              subst hps
              refine ⟨?_, ?_, ?_, ?_, ?_⟩
              · rw [htcr]
                exact (tcr_fields_spec (by decide) hias1).1
              · rw [htcr, (tcr_fields_spec (by decide) hias1).2.1]
                decide
              · rw [htcr, (tcr_fields_spec (by decide) hias1).2.2.1]
                decide
              · rw [← hoas, hps0, Option.some.injEq, htcr,
                  (tcr_fields_spec (by decide) hias1).2.2.2.2]
                decide
              · rw [htcr, (tcr_fields_spec (by decide) hias1).2.2.2.1]
                decide )
        · rw [hpg] at htcr ⊢
          rw [if_neg (by decide), if_neg (by decide), if_pos (by decide)] at htcr
          rw [ARM_LPAE_TCR_PS_OF_OAS] at hps
          split_ifs at hps with c32 c36 c40 c42 c44 c48 <;>
          first
          | exact Option.noConfusion hps
          | ( rw [Option.some.injEq] at hps
              subst hps
              refine ⟨?_, ?_, ?_, ?_, ?_⟩
              · rw [htcr]
                exact (tcr_fields_spec (by decide) hias1).1
              · rw [htcr, (tcr_fields_spec (by decide) hias1).2.1]
                decide
              · rw [htcr, (tcr_fields_spec (by decide) hias1).2.2.1]
                decide
              · rw [← hoas, hps0, Option.some.injEq, htcr,
                  (tcr_fields_spec (by decide) hias1).2.2.2.2]
                decide
              · rw [htcr, (tcr_fields_spec (by decide) hias1).2.2.2.1]
                decide )
  · intro cfg hno
    push_neg at hno
    rw [arm_64_lpae_alloc_pgtable_s1]
    rcases halloc : arm_lpae_alloc_pgtable IoPgtableFmt.ARM_64_LPAE_S1 cfg with _ | ⟨cfgA, dA⟩
    · simp
    · have hoas : cfgA.oas = cfg.oas := by
        obtain ⟨hcfg, _⟩ := arm_lpae_alloc_pgtable_eq halloc
        rw [hcfg, restrict_pgsizes_oas]
      have hps : ARM_LPAE_TCR_PS_OF_OAS cfgA.oas = none := by
        rw [hoas, ARM_LPAE_TCR_PS_OF_OAS, if_neg hno.1, if_neg hno.2.1, if_neg hno.2.2.1,
          if_neg hno.2.2.2.1, if_neg hno.2.2.2.2.1, if_neg hno.2.2.2.2.2]
      simp [hps]

/-- C7 witness: the stage-1 constructor at ias = oas = 48 with the 4K
family, fields checked on the concrete TCR word it produces. -/
theorem C7_stage1_tcr_witness :
    TCR_FIELD_T0SZ 21483237392 = 64 - 48 ∧
    TCR_FIELD_EPD1 21483237392 = ARM_LPAE_TCR_EPD1_FAULT ∧
    TCR_FIELD_SH0 21483237392 = ARM_LPAE_TCR_SH_IS ∧
    ARM_LPAE_TCR_PS_OF_OAS 48 = some (TCR_FIELD_IPS 21483237392) ∧
    TCR_FIELD_TG0 21483237392 = ARM_LPAE_TCR_TG0_OF_GRANULE 12 :=
  C7_stage1_tcr.1 ⟨false, 0x40201000, 48, 48⟩ ⟨false, 1075843072, 48, 48⟩
    ⟨IoPgtableFmt.ARM_64_LPAE_S1, ⟨false, 1075843072, 48, 48⟩, 4, 4096, 12, 9⟩
    ⟨21483237392, 327492, 0⟩ (by decide) (by decide)

/-- Flat form of the conditional or-chain of arm_lpae_init_pte_value. -/
theorem arm_lpae_init_pte_value_eq (data : ArmLpaeData) (paddr : Nat) (prot : Iopte)
    (lvl : Nat) :
    arm_lpae_init_pte_value data paddr prot lvl =
      ((prot ||| (if data.cfg.quirk_arm_ns then ARM_LPAE_PTE_NS else 0))
        ||| (if lvl = ARM_LPAE_MAX_LEVELS - 1 then ARM_LPAE_PTE_TYPE_PAGE
             else ARM_LPAE_PTE_TYPE_BLOCK))
        ||| (ARM_LPAE_PTE_AF ||| ARM_LPAE_PTE_SH_IS)
        ||| pfn_to_iopte (paddr >>> data.pg_shift) data := by
  rw [arm_lpae_init_pte_value]
  split_ifs <;> simp [Nat.or_zero]

/-- The protection encoder reads nothing of the geometry except the format. -/
theorem arm_lpae_prot_to_pte_only_fmt (data : ArmLpaeData) (prot : IommuProt) :
    arm_lpae_prot_to_pte data prot =
      arm_lpae_prot_to_pte ⟨data.fmt, ⟨false, 0, 0, 0⟩, 0, 0, 0, 0⟩ prot := rfl

/-- Every stage-1 or stage-2 protection encoding is a word below 2^12
together with the optional XN field: dropping NOEXEC from the set yields
the low part, and NOEXEC only adds the XN constant on top. -/
theorem arm_lpae_prot_to_pte_decomp (data : ArmLpaeData) (prot : IommuProt) :
    arm_lpae_prot_to_pte data
        ⟨prot.read, prot.write, prot.cache, false, prot.device, prot.priv⟩ < 2 ^ 12 ∧
      arm_lpae_prot_to_pte data prot =
        arm_lpae_prot_to_pte data
            ⟨prot.read, prot.write, prot.cache, false, prot.device, prot.priv⟩ |||
          (if prot.noexec then ARM_LPAE_PTE_XN else 0) := by
  rw [arm_lpae_prot_to_pte_only_fmt data prot, arm_lpae_prot_to_pte_only_fmt data
    ⟨prot.read, prot.write, prot.cache, false, prot.device, prot.priv⟩]
  rcases prot with ⟨r, w, c, nx, dev, pv⟩
  rcases hf : data.fmt <;> rcases r <;> rcases w <;> rcases c <;> rcases nx <;>
    rcases dev <;> rcases pv <;> exact ⟨by decide, by decide⟩

theorem testBit_XN (i : Nat) :
    ARM_LPAE_PTE_XN.testBit i = decide (i = 53 ∨ i = 54) := by
  rw [ARM_LPAE_PTE_XN, Nat.testBit_shiftLeft]
  rcases Nat.lt_or_ge i 53 with h | h
  · have h1 : decide (53 ≤ i) = false := by simp; omega
    have h2 : decide (i = 53 ∨ i = 54) = false := by simp; omega
    rw [h1, h2, Bool.false_and]
  · rcases Nat.lt_or_ge i 55 with h5 | h5
    · have h1 : decide (53 ≤ i) = true := by simp [h]
      have h2 : decide (i = 53 ∨ i = 54) = true := by simp; omega
      have h3 : (3 : Nat).testBit (i - 53) = true := by
        interval_cases i
        · decide
        · decide
      rw [h1, h2, h3, Bool.true_and]
    · have h1 : (3 : Nat).testBit (i - 53) = false := by
        apply Nat.testBit_eq_false_of_lt
        calc (3 : Nat) < 2 ^ 2 := by norm_num
          _ ≤ 2 ^ (i - 53) := Nat.pow_le_pow_right (by norm_num) (by omega)
      have h2 : decide (i = 53 ∨ i = 54) = false := by simp; omega
      rw [h1, h2, Bool.and_false]

/-- Bits at or above 52 of an installed stage-1 leaf: with NOEXEC in the
protection set, bits 53 and 54 are set and nothing else up there is. -/
theorem leaf_upper_bits {data : ArmLpaeData} {prot : IommuProt} (paddr lvl : Nat)
    (hnx : prot.noexec = true) (i : Nat) (h52 : 52 ≤ i) :
    (arm_lpae_init_pte_value data paddr (arm_lpae_prot_to_pte data prot) lvl).testBit i =
      decide (i = 53 ∨ i = 54) := by
  obtain ⟨hplow, hdecomp⟩ := arm_lpae_prot_to_pte_decomp data prot
  set plow := arm_lpae_prot_to_pte data
    ⟨prot.read, prot.write, prot.cache, false, prot.device, prot.priv⟩ with hplowdef
  rw [arm_lpae_init_pte_value_eq, hdecomp, hnx]
  have hpow : (2 : Nat) ^ 12 ≤ 2 ^ i := Nat.pow_le_pow_right (by norm_num) (by omega)
  have hplow' : plow.testBit i = false :=
    Nat.testBit_eq_false_of_lt (lt_of_lt_of_le hplow hpow)
  have hns : (if data.cfg.quirk_arm_ns then ARM_LPAE_PTE_NS else 0).testBit i = false := by
    apply Nat.testBit_eq_false_of_lt
    apply lt_of_lt_of_le _ hpow
    split_ifs <;> decide
  have htyp : (if lvl = ARM_LPAE_MAX_LEVELS - 1 then ARM_LPAE_PTE_TYPE_PAGE
      else ARM_LPAE_PTE_TYPE_BLOCK).testBit i = false := by
    apply Nat.testBit_eq_false_of_lt
    apply lt_of_lt_of_le _ hpow
    split_ifs <;> decide
  have hafsh : (ARM_LPAE_PTE_AF ||| ARM_LPAE_PTE_SH_IS).testBit i = false := by
    apply Nat.testBit_eq_false_of_lt
    exact lt_of_lt_of_le (by decide) hpow
  have hpfn : (pfn_to_iopte (paddr >>> data.pg_shift) data).testBit i = false := by
    rw [pfn_to_iopte, Nat.testBit_and, show ((1 <<< ARM_LPAE_MAX_ADDR_BITS) - 1 : Nat)
      = 2 ^ 48 - 1 from by decide, Nat.testBit_two_pow_sub_one]
    have : decide (i < 48) = false := by simp; omega
    rw [this, Bool.and_false]
  simp only [Nat.testBit_or, hplow', hns, htyp, hafsh, hpfn]
  simp [testBit_XN]

/-- C8, corrected form. The source defines the execute-never constant as a
two-bit field: ARM_LPAE_PTE_XN is 3 shifted to bit 53, so a stage-1 leaf
installed with NOEXEC carries exactly bits 53 and 54 among the upper
attribute bits 52..63, not bit 54 alone; and every leaf value carries the
access flag, bit 10. -/
theorem C8_xn_af :
    (∀ (data : ArmLpaeData) (prot : IommuProt) (paddr lvl : Nat),
        prot.noexec = true → ∀ i, 52 ≤ i → i ≤ 63 →
        (arm_lpae_init_pte_value data paddr (arm_lpae_prot_to_pte data prot)
            lvl).testBit i = decide (i = 53 ∨ i = 54)) ∧
    (∀ (data : ArmLpaeData) (paddr : Nat) (prot : Iopte) (lvl : Nat),
        (arm_lpae_init_pte_value data paddr prot lvl).testBit 10 = true) := by
  constructor
  · intro data prot paddr lvl hnx i h52 _h63
    exact leaf_upper_bits paddr lvl hnx i h52
  · intro data paddr prot lvl
    rw [arm_lpae_init_pte_value_eq]
    have haf : (ARM_LPAE_PTE_AF ||| ARM_LPAE_PTE_SH_IS).testBit 10 = true := by decide
    simp [Nat.testBit_or, haf]

/-- C8 counterexample: a concrete stage-1 leaf built with NOEXEC has bit 53
set, so bit 54 is not the only upper attribute bit. -/
theorem C8_xn_af_cex :
    (arm_lpae_init_pte_value
        ⟨IoPgtableFmt.ARM_64_LPAE_S1, ⟨false, 1075843072, 48, 48⟩, 4, 4096, 12, 9⟩
        0
        (arm_lpae_prot_to_pte
          ⟨IoPgtableFmt.ARM_64_LPAE_S1, ⟨false, 1075843072, 48, 48⟩, 4, 4096, 12, 9⟩
          ⟨true, false, false, true, false, false⟩)
        3).testBit 53 = true := by decide

/-- C8 witness: the corrected statement applied to the same concrete leaf at
bit 54, and the access-flag conjunct at the same leaf. -/
theorem C8_xn_af_witness :
    (arm_lpae_init_pte_value
        ⟨IoPgtableFmt.ARM_64_LPAE_S1, ⟨false, 1075843072, 48, 48⟩, 4, 4096, 12, 9⟩
        0
        (arm_lpae_prot_to_pte
          ⟨IoPgtableFmt.ARM_64_LPAE_S1, ⟨false, 1075843072, 48, 48⟩, 4, 4096, 12, 9⟩
          ⟨true, false, false, true, false, false⟩)
        3).testBit 54 = decide ((54 : Nat) = 53 ∨ (54 : Nat) = 54) :=
  C8_xn_af.1 ⟨IoPgtableFmt.ARM_64_LPAE_S1, ⟨false, 1075843072, 48, 48⟩, 4, 4096, 12, 9⟩
    ⟨true, false, false, true, false, false⟩ 0 3 rfl 54 (by decide) (by decide)

/-! C9: bit-level characterisation of the table-use counter codec. -/

theorem not64_reserved_bits : ∀ i, i < 64 →
    ((not64 IOPTE_RESERVED_MASK).testBit i =
      ! decide ((2 ≤ i ∧ i < 12) ∨ (52 ≤ i ∧ i < 59))) := by decide

theorem not64_reserved_lt : not64 IOPTE_RESERVED_MASK < 2 ^ 64 := by decide

theorem not64_reserved_testBit_ge {i : Nat} (h : 64 ≤ i) :
    (not64 IOPTE_RESERVED_MASK).testBit i = false :=
  Nat.testBit_eq_false_of_lt
    (lt_of_lt_of_le not64_reserved_lt (Nat.pow_le_pow_right (by norm_num) h))

theorem iopte_val_testBit (d i : Nat) :
    (iopte_val d).testBit i =
      (d.testBit i && (! decide ((2 ≤ i ∧ i < 12) ∨ (52 ≤ i ∧ i < 59)) &&
        decide (i < 64))) := by
  rw [iopte_val, Nat.testBit_and]
  rcases Nat.lt_or_ge i 64 with h | h
  · rw [not64_reserved_bits i h]
    have : decide (i < 64) = true := by simp [h]
    rw [this, Bool.and_true]
  · rw [not64_reserved_testBit_ge h]
    have : decide (i < 64) = false := by simp; omega
    simp [this]

theorem setB_testBit (v i : Nat) :
    ((v &&& BOTTOM_IGNORED_MASK) <<< BOTTOM_IGNORED_SHIFT).testBit i =
      (decide (2 ≤ i) && (v.testBit (i - 2) && decide (i - 2 < 10))) := by
  simp only [BOTTOM_IGNORED_MASK, BOTTOM_IGNORED_SHIFT]
  rw [Nat.testBit_shiftLeft, Nat.testBit_and, show (1023 : Nat) = 2 ^ 10 - 1 by norm_num,
    Nat.testBit_two_pow_sub_one]

theorem setT_testBit (v i : Nat) :
    (((v &&& (TOP_IGNORED_MASK <<< BOTTOM_IGNORED_NUM_BITS)) >>> BOTTOM_IGNORED_NUM_BITS)
        <<< TOP_IGNORED_SHIFT).testBit i =
      (decide (52 ≤ i) && (v.testBit (i - 52 + 10) && decide (i - 52 < 7))) := by
  simp only [TOP_IGNORED_MASK, TOP_IGNORED_SHIFT, BOTTOM_IGNORED_NUM_BITS]
  rw [Nat.testBit_shiftLeft, Nat.testBit_shiftRight, Nat.testBit_and,
    Nat.testBit_shiftLeft, show (127 : Nat) = 2 ^ 7 - 1 by norm_num,
    Nat.testBit_two_pow_sub_one]
  have e1 : 10 + (i - 52) - 10 = i - 52 := by omega
  have e2 : decide (10 ≤ 10 + (i - 52)) = true := by simp
  have e3 : 10 + (i - 52) = i - 52 + 10 := by omega
  rw [e1, e2, e3, Bool.true_and]

theorem iopte_tblcnt_set_bit_low {d v i : Nat} (h2 : 2 ≤ i) (h12 : i < 12) :
    (iopte_tblcnt_set d v).testBit i = v.testBit (i - 2) := by
  rw [iopte_tblcnt_set]
  simp only [Nat.testBit_or]
  rw [iopte_val_testBit, setB_testBit, setT_testBit]
  have hreg : decide ((2 ≤ i ∧ i < 12) ∨ (52 ≤ i ∧ i < 59)) = true := by
    simp only [decide_eq_true_eq]
    left
    exact ⟨h2, h12⟩
  have hb2 : decide (2 ≤ i) = true := by simp [h2]
  have hb10 : decide (i - 2 < 10) = true := by simp; omega
  have hb52 : decide (52 ≤ i) = false := by simp; omega
  rw [hreg, hb2, hb10, hb52]
  simp

theorem iopte_tblcnt_set_bit_high {d v i : Nat} (h52 : 52 ≤ i) (h59 : i < 59) :
    (iopte_tblcnt_set d v).testBit i = v.testBit (i - 42) := by
  rw [iopte_tblcnt_set]
  simp only [Nat.testBit_or]
  rw [iopte_val_testBit, setB_testBit, setT_testBit]
  have hreg : decide ((2 ≤ i ∧ i < 12) ∨ (52 ≤ i ∧ i < 59)) = true := by
    simp only [decide_eq_true_eq]
    right
    exact ⟨h52, h59⟩
  have hb2 : decide (2 ≤ i) = true := by simp; omega
  have hb10 : decide (i - 2 < 10) = false := by simp; omega
  have hb52 : decide (52 ≤ i) = true := by simp [h52]
  have hb7 : decide (i - 52 < 7) = true := by simp; omega
  have harg : i - 52 + 10 = i - 42 := by omega
  rw [hreg, hb2, hb10, hb52, hb7, harg]
  simp

theorem iopte_tblcnt_set_bit_other {d v i : Nat}
    (hno : ¬ ((2 ≤ i ∧ i < 12) ∨ (52 ≤ i ∧ i < 59))) (h64 : i < 64) :
    (iopte_tblcnt_set d v).testBit i = d.testBit i := by
  rw [iopte_tblcnt_set]
  simp only [Nat.testBit_or]
  rw [iopte_val_testBit, setB_testBit, setT_testBit]
  have hreg : decide ((2 ≤ i ∧ i < 12) ∨ (52 ≤ i ∧ i < 59)) = false := by
    simp only [decide_eq_false_iff_not]
    exact hno
  have h64t : decide (i < 64) = true := by simp [h64]
  rcases Nat.lt_or_ge i 2 with hlt | hge
  · have hb2 : decide (2 ≤ i) = false := by simp; omega
    have hb52 : decide (52 ≤ i) = false := by simp; omega
    rw [hreg, hb2, hb52, h64t]
    simp
  · rcases Nat.lt_or_ge i 52 with hmid | hhi
    · have hb10 : decide (i - 2 < 10) = false := by simp; omega
      have hb52 : decide (52 ≤ i) = false := by simp; omega
      rw [hreg, hb10, hb52, h64t]
      simp
    · have hb10 : decide (i - 2 < 10) = false := by simp; omega
      have hb7 : decide (i - 52 < 7) = false := by simp; omega
      rw [hreg, hb10, hb7, h64t]
      simp

theorem iopte_tblcnt_set_bit_ge {d v i : Nat} (h : 64 ≤ i) :
    (iopte_tblcnt_set d v).testBit i = false := by
  rw [iopte_tblcnt_set]
  simp only [Nat.testBit_or]
  rw [iopte_val_testBit, setB_testBit, setT_testBit]
  have h64t : decide (i < 64) = false := by simp; omega
  have hb10 : decide (i - 2 < 10) = false := by simp; omega
  have hb7 : decide (i - 52 < 7) = false := by simp; omega
  rw [h64t, hb10, hb7]
  simp

theorem iopte_tblcnt_testBit (y j : Nat) :
    (iopte_tblcnt y).testBit j =
      (if j < 10 then y.testBit (j + 2)
       else (y.testBit (j + 42) && decide (j < 17))) := by
  rw [iopte_tblcnt, _iopte_bottom_ignored_val, _iopte_top_ignored_val]
  simp only [BOTTOM_IGNORED_MASK, BOTTOM_IGNORED_SHIFT, BOTTOM_IGNORED_NUM_BITS,
    TOP_IGNORED_MASK, TOP_IGNORED_SHIFT]
  rw [Nat.testBit_or, Nat.testBit_shiftRight, Nat.testBit_and, Nat.testBit_shiftLeft,
    show (1023 : Nat) = 2 ^ 10 - 1 by norm_num, Nat.testBit_two_pow_sub_one,
    Nat.testBit_shiftLeft, Nat.testBit_shiftRight, Nat.testBit_and, Nat.testBit_shiftLeft,
    show (127 : Nat) = 2 ^ 7 - 1 by norm_num, Nat.testBit_two_pow_sub_one]
  have e1 : decide (2 ≤ 2 + j) = true := by simp
  have e2 : 2 + j - 2 = j := by omega
  have e3 : decide (52 ≤ 52 + (j - 10)) = true := by simp
  have e4 : 52 + (j - 10) - 52 = j - 10 := by omega
  rw [e1, e2, e3, e4, Bool.true_and, Bool.true_and]
  by_cases hj : j < 10
  · have f1 : decide (j < 10) = true := by simp [hj]
    have f2 : decide (10 ≤ j) = false := by simp; omega
    rw [if_pos hj, f1, f2, Bool.false_and, Bool.or_false, Bool.and_true]
    congr 1
    omega
  · have f1 : decide (j < 10) = false := by simp; omega
    have f2 : decide (10 ≤ j) = true := by simp; omega
    have f3 : 52 + (j - 10) = j + 42 := by omega
    have f4 : decide (j - 10 < 7) = decide (j < 17) := by
      rcases Nat.lt_or_ge j 17 with h | h <;> simp <;> omega
    rw [if_neg hj, f1, f2, f3, f4, Bool.and_false, Bool.false_or, Bool.true_and]

/-- Writing a counter leaves the architectural bits untouched. -/
theorem iopte_val_tblcnt_set (d x : Nat) :
    iopte_val (iopte_tblcnt_set d x) = iopte_val d := by
  apply Nat.eq_of_testBit_eq
  intro i
  rw [iopte_val_testBit, iopte_val_testBit]
  by_cases hreg : (2 ≤ i ∧ i < 12) ∨ (52 ≤ i ∧ i < 59)
  · have : decide ((2 ≤ i ∧ i < 12) ∨ (52 ≤ i ∧ i < 59)) = true := by
      simp only [decide_eq_true_eq]
      exact hreg
    rw [this]
    simp
  · rcases Nat.lt_or_ge i 64 with h64 | h64
    · rw [iopte_tblcnt_set_bit_other hreg h64]
    · have : decide (i < 64) = false := by simp; omega
      rw [this]
      simp

/-- Reading the counter back after writing it returns the value (for
values in the 17-bit range the field holds). -/
theorem iopte_tblcnt_of_set {v : Nat} (d : Nat) (hv : v < 2 ^ 17) :
    iopte_tblcnt (iopte_tblcnt_set d v) = v := by
  apply Nat.eq_of_testBit_eq
  intro j
  rw [iopte_tblcnt_testBit]
  by_cases hj : j < 10
  · rw [if_pos hj, iopte_tblcnt_set_bit_low (by omega) (by omega)]
    simp
  · rw [if_neg hj]
    by_cases hj17 : j < 17
    · rw [iopte_tblcnt_set_bit_high (by omega) (by omega)]
      have : decide (j < 17) = true := by simp [hj17]
      rw [this, Bool.and_true]
      simp
    · have h1 : decide (j < 17) = false := by simp; omega
      rw [h1, Bool.and_false]
      exact (Nat.testBit_eq_false_of_lt
        (lt_of_lt_of_le hv (Nat.pow_le_pow_right (by norm_num) (by omega)))).symm

/-- The output-address decoder never reads the counter bits (granules put
pg_shift at 12 or above, so the low reserved bits fall below the address
field and the high ones above bit 47). -/
theorem iopte_to_pfn_tblcnt_set {d v : Nat} {dd : ArmLpaeData}
    (hpg : 12 ≤ dd.pg_shift) :
    iopte_to_pfn (iopte_tblcnt_set d v) dd = iopte_to_pfn d dd := by
  apply Nat.eq_of_testBit_eq
  intro j
  rw [iopte_to_pfn, iopte_to_pfn, Nat.testBit_shiftRight, Nat.testBit_shiftRight,
    Nat.testBit_and, Nat.testBit_and,
    show ((1 <<< ARM_LPAE_MAX_ADDR_BITS) - 1 : Nat) = 2 ^ 48 - 1 from by decide,
    Nat.testBit_two_pow_sub_one]
  by_cases h48 : dd.pg_shift + j < 48
  · have hother : ¬ ((2 ≤ dd.pg_shift + j ∧ dd.pg_shift + j < 12) ∨
        (52 ≤ dd.pg_shift + j ∧ dd.pg_shift + j < 59)) := by omega
    rw [iopte_tblcnt_set_bit_other hother (by omega)]
  · have : decide (dd.pg_shift + j < 48) = false := by simp; omega
    rw [this, Bool.and_false, Bool.and_false]

/-- C9 as stated: the counter codec round-trips below 2^17, never disturbs
the architectural bits (type and output address) on set, add or sub, and
the output-address decode is independent of the stored counter. -/
theorem C9_tblcnt_codec (d v : Nat) (hv : v < 2 ^ 17) :
    iopte_tblcnt (iopte_tblcnt_set d v) = v ∧
    iopte_val (iopte_tblcnt_set d v) = iopte_val d ∧
    (∀ c, iopte_val (iopte_tblcnt_add d c) = iopte_val d) ∧
    (∀ c, iopte_val (iopte_tblcnt_sub d c) = iopte_val d) ∧
    (∀ dd : ArmLpaeData, 12 ≤ dd.pg_shift →
      iopte_to_pfn (iopte_tblcnt_set d v) dd = iopte_to_pfn d dd) := by
  refine ⟨iopte_tblcnt_of_set d hv, iopte_val_tblcnt_set d v, ?_, ?_, ?_⟩
  · intro c
    rw [iopte_tblcnt_add, iopte_val_tblcnt_set]
  · intro c
    rw [iopte_tblcnt_sub, iopte_val_tblcnt_set]
  · intro dd hpg
    exact iopte_to_pfn_tblcnt_set hpg

/-- C9 witness: round-trip and invariance at a concrete table descriptor
and counter value. -/
theorem C9_tblcnt_codec_witness :
    iopte_tblcnt (iopte_tblcnt_set 0x8003 1234) = 1234 ∧
    iopte_val (iopte_tblcnt_set 0x8003 1234) = iopte_val 0x8003 ∧
    (∀ c, iopte_val (iopte_tblcnt_add 0x8003 c) = iopte_val 0x8003) ∧
    (∀ c, iopte_val (iopte_tblcnt_sub 0x8003 c) = iopte_val 0x8003) ∧
    (∀ dd : ArmLpaeData, 12 ≤ dd.pg_shift →
      iopte_to_pfn (iopte_tblcnt_set 0x8003 1234) dd = iopte_to_pfn 0x8003 dd) :=
  C9_tblcnt_codec 0x8003 1234 (by decide)

/-! Event-trace lemmas: every hook call the internal walkers emit is a
flush_pgtable; the single tlb_flush_all of an unmap comes from the
arm_lpae_unmap wrapper alone. -/

theorem count_cons_flushpg (n : Nat) (l : List TlbEvent) :
    (TlbEvent.flush_pgtable n :: l).count TlbEvent.tlb_flush_all =
      l.count TlbEvent.tlb_flush_all := by
  rw [List.count_cons]
  simp

theorem arm_lpae_init_pte_evs (data : ArmLpaeData) (iova paddr : Nat) (prot : Iopte)
    (lvl : Nat) (slot : Iopte × Option PTab) (flush : Bool) :
    (arm_lpae_init_pte data iova paddr prot lvl slot flush).2.2.count
      TlbEvent.tlb_flush_all = 0 := by
  rw [arm_lpae_init_pte]
  split
  · rfl
  · split
    · exact count_cons_flushpg 8 []
    · rfl

theorem __arm_lpae_map_evs (data : ArmLpaeData) (iova paddr size : Nat) (prot : Iopte) :
    ∀ (fuel lvl : Nat) (tbl : PTab) (path : List Nat) (ms : Option MapState)
      (budget : Nat),
    (__arm_lpae_map data iova paddr size prot lvl tbl path ms budget fuel).evs.count
      TlbEvent.tlb_flush_all = 0 := by
  intro fuel
  induction fuel with
  | zero =>
    intro lvl tbl path ms budget
    simp only [__arm_lpae_map]
    split
    · split
      · exact arm_lpae_init_pte_evs data iova paddr prot lvl _ true
      · split <;>
          · simp only [List.count_append, arm_lpae_init_pte_evs]
            split <;> simp [count_cons_flushpg]
    · split
      · rfl
      · rfl
  | succ fuel ih =>
    intro lvl tbl path ms budget
    simp only [__arm_lpae_map]
    split
    · split
      · exact arm_lpae_init_pte_evs data iova paddr prot lvl _ true
      · split <;>
          · simp only [List.count_append, arm_lpae_init_pte_evs]
            split <;> simp [count_cons_flushpg]
    · split
      · rfl
      · split
        · split
          · rfl
          · simp only [count_cons_flushpg]
            exact ih _ _ _ _ _
        · split
          · exact ih _ _ _ _ _
          · exact ih _ _ _ _ _

theorem arm_lpae_split_blk_loop_evs (data : ArmLpaeData) (iova sizeC : Nat)
    (prot : Iopte) (lvl : Nat) :
    ∀ (n blk_start blk_paddr : Nat) (table : Iopte × Option PTab) (budget : Nat)
      (evs : List TlbEvent),
    (arm_lpae_split_blk_loop data iova sizeC prot lvl n blk_start blk_paddr table
      budget evs).2.2.2.count TlbEvent.tlb_flush_all =
      evs.count TlbEvent.tlb_flush_all := by
  intro n
  induction n with
  | zero => intro blk_start blk_paddr table budget evs; rfl
  | succ n ih =>
    intro blk_start blk_paddr table budget evs
    simp only [arm_lpae_split_blk_loop]
    split
    · exact ih _ _ _ _ _
    · split
      · simp [List.count_append, __arm_lpae_map_evs]
      · rw [ih]
        simp [List.count_append, __arm_lpae_map_evs]

theorem arm_lpae_split_blk_unmap_evs (data : ArmLpaeData) (iova size : Nat)
    (prot : Iopte) (lvl : Nat) (slot : Iopte × Option PTab) (budget blk_size : Nat) :
    (arm_lpae_split_blk_unmap data iova size prot lvl slot budget blk_size).evs.count
      TlbEvent.tlb_flush_all = 0 := by
  simp only [arm_lpae_split_blk_unmap]
  split
  · simp [List.count_append, arm_lpae_split_blk_loop_evs]
  · simp [arm_lpae_split_blk_loop_evs]

theorem __arm_lpae_unmap_evs (data : ArmLpaeData) (iova size : Nat) :
    ∀ (fuel lvl : Nat) (tbl : PTab) (budget : Nat),
    (__arm_lpae_unmap data iova size lvl tbl budget fuel).evs.count
      TlbEvent.tlb_flush_all = 0 := by
  intro fuel
  induction fuel with
  | zero =>
    intro lvl tbl budget
    simp only [__arm_lpae_unmap]
    split
    · rfl
    · split
      · exact count_cons_flushpg 8 []
      · split
        · split <;> simp [count_cons_flushpg]
        · split
          · exact arm_lpae_split_blk_unmap_evs data iova size _ lvl _ budget _
          · rfl
  | succ fuel ih =>
    intro lvl tbl budget
    simp only [__arm_lpae_unmap]
    split
    · rfl
    · split
      · exact count_cons_flushpg 8 []
      · split
        · split <;> simp [count_cons_flushpg]
        · split
          · exact arm_lpae_split_blk_unmap_evs data iova size _ lvl _ budget _
          · split
            · exact ih _ _ _
            · rfl

theorem arm_lpae_unmap_loop_evs (data : ArmLpaeData) (size : Nat) :
    ∀ (fuel : Nat) (t : PTab) (iova unmapped budget : Nat) (evs : List TlbEvent),
    (arm_lpae_unmap_loop data size fuel t iova unmapped budget evs).2.2.2.count
      TlbEvent.tlb_flush_all = evs.count TlbEvent.tlb_flush_all := by
  intro fuel
  induction fuel with
  | zero => intro t iova unmapped budget evs; rfl
  | succ fuel ih =>
    intro t iova unmapped budget evs
    simp only [arm_lpae_unmap_loop]
    split
    · rfl
    · split <;>
      · split
        · simp [List.count_append, __arm_lpae_unmap_evs]
        · rw [ih]
          simp [List.count_append, __arm_lpae_unmap_evs]

/-- C10: every unmap(iova, size) call that unmapped at least one byte emits
exactly one tlb_flush_all, as the final event after the internal loop; a
call that unmapped nothing emits no tlb_flush_all at all (and its return
value is that zero byte count). -/
theorem C10_unmap_flush (data : ArmLpaeData) (t : PTab) (iova size budget : Nat) :
    ((arm_lpae_unmap data t iova size budget).1 ≠ 0 →
      (arm_lpae_unmap data t iova size budget).2.2.2.count TlbEvent.tlb_flush_all = 1 ∧
      (arm_lpae_unmap data t iova size budget).2.2.2.getLast? =
        some TlbEvent.tlb_flush_all) ∧
    ((arm_lpae_unmap data t iova size budget).1 = 0 →
      (arm_lpae_unmap data t iova size budget).2.2.2.count TlbEvent.tlb_flush_all = 0) := by
  have hloop := arm_lpae_unmap_loop_evs data size (size + 1) t iova 0 budget []
  simp only [arm_lpae_unmap]
  by_cases hc : (arm_lpae_unmap_loop data size (size + 1) t iova 0 budget []).1 = 0
  · rw [if_neg (by simpa using hc)]
    exact ⟨fun h => absurd hc h, fun _ => hloop⟩
  · rw [if_pos hc]
    constructor
    · intro h
      constructor
      · rw [List.count_append, hloop]
        rfl
      · exact List.getLast?_concat _
    · intro h
      exact absurd h hc

theorem C10_unmap_flush_witness :
    ((arm_lpae_unmap ⟨IoPgtableFmt.ARM_64_LPAE_S1, ⟨false, 1075843072, 48, 48⟩, 4, 4096, 12, 9⟩
        (arm_lpae_map ⟨IoPgtableFmt.ARM_64_LPAE_S1, ⟨false, 1075843072, 48, 48⟩, 4, 4096, 12, 9⟩
          (arm_lpae_pgd ⟨IoPgtableFmt.ARM_64_LPAE_S1, ⟨false, 1075843072, 48, 48⟩, 4, 4096, 12, 9⟩)
          0x1234000 0x5678000 0x1000 ⟨true, true, false, false, false, false⟩ 10).2.1
        0x1234000 0x1000 10).1 ≠ 0 ∧
      (arm_lpae_unmap ⟨IoPgtableFmt.ARM_64_LPAE_S1, ⟨false, 1075843072, 48, 48⟩, 4, 4096, 12, 9⟩
        (arm_lpae_map ⟨IoPgtableFmt.ARM_64_LPAE_S1, ⟨false, 1075843072, 48, 48⟩, 4, 4096, 12, 9⟩
          (arm_lpae_pgd ⟨IoPgtableFmt.ARM_64_LPAE_S1, ⟨false, 1075843072, 48, 48⟩, 4, 4096, 12, 9⟩)
          0x1234000 0x5678000 0x1000 ⟨true, true, false, false, false, false⟩ 10).2.1
        0x1234000 0x1000 10).2.2.2.count TlbEvent.tlb_flush_all = 1) ∧
    ((arm_lpae_unmap ⟨IoPgtableFmt.ARM_64_LPAE_S1, ⟨false, 1075843072, 48, 48⟩, 4, 4096, 12, 9⟩
        (arm_lpae_pgd ⟨IoPgtableFmt.ARM_64_LPAE_S1, ⟨false, 1075843072, 48, 48⟩, 4, 4096, 12, 9⟩)
        0x7000 0x1000 10).1 = 0 ∧
      (arm_lpae_unmap ⟨IoPgtableFmt.ARM_64_LPAE_S1, ⟨false, 1075843072, 48, 48⟩, 4, 4096, 12, 9⟩
        (arm_lpae_pgd ⟨IoPgtableFmt.ARM_64_LPAE_S1, ⟨false, 1075843072, 48, 48⟩, 4, 4096, 12, 9⟩)
        0x7000 0x1000 10).2.2.2.count TlbEvent.tlb_flush_all = 0) :=
  ⟨⟨by decide, ((C10_unmap_flush _ _ 0x1234000 0x1000 10).1 (by decide)).1⟩,
   ⟨by decide, (C10_unmap_flush _ _ 0x7000 0x1000 10).2 (by decide)⟩⟩

/-! Slot bookkeeping lemmas. -/

theorem getD_set_self {α : Type} : ∀ (l : List α) (i : Nat) (d : α),
    l.set i (l.getD i d) = l
  | [], _, _ => rfl
  | _ :: _, 0, _ => rfl
  | a :: l, i + 1, d => congrArg (a :: ·) (getD_set_self l i d)

theorem writeSlot_readSlot (t : PTab) (idx : Nat) :
    writeSlot t idx (readSlot t idx) = t := by
  cases t with
  | mk slots => exact congrArg PTab.mk (getD_set_self slots idx _)

theorem replicate_getD {α : Type} : ∀ (n i : Nat) (a : α),
    (List.replicate n a).getD i a = a
  | 0, 0, _ => rfl
  | 0, _ + 1, _ => rfl
  | _ + 1, 0, _ => rfl
  | n + 1, i + 1, a => replicate_getD n i a

theorem readSlot_empty (n idx : Nat) :
    readSlot (PTab.mk (List.replicate n (0, none))) idx = (0, none) :=
  replicate_getD n idx (0, none)

/-! arm_lpae_init_pte facts. -/

theorem arm_lpae_init_pte_ret_cases (data : ArmLpaeData) (iova paddr : Nat)
    (prot : Iopte) (lvl : Nat) (slot : Iopte × Option PTab) (flush : Bool) :
    (arm_lpae_init_pte data iova paddr prot lvl slot flush).1 = 0 ∨
    (arm_lpae_init_pte data iova paddr prot lvl slot flush).2.1 = slot := by
  rw [arm_lpae_init_pte]
  split
  · exact Or.inr rfl
  · exact Or.inl rfl

theorem arm_lpae_init_pte_zero_ret (data : ArmLpaeData) (iova paddr : Nat)
    (prot : Iopte) (lvl : Nat) (flush : Bool) :
    (arm_lpae_init_pte data iova paddr prot lvl (0, none) flush).1 = 0 := by
  rw [arm_lpae_init_pte]
  rw [if_neg (by decide)]

/-- An installed flag reports a successful store. -/
theorem map_installed_ret (data : ArmLpaeData) (iova paddr size : Nat) (prot : Iopte)
    (fuel lvl : Nat) (tbl : PTab) (path : List Nat) (ms : Option MapState)
    (budget : Nat)
    (h : (__arm_lpae_map data iova paddr size prot lvl tbl path ms budget
      fuel).installed_here = true) :
    (__arm_lpae_map data iova paddr size prot lvl tbl path ms budget fuel).ret = 0 := by
  cases fuel <;>
  · revert h
    simp only [__arm_lpae_map]
    split
    · split
      · intro h
        exact of_decide_eq_true h
      · split <;>
          · intro h
            exact of_decide_eq_true h
    · split
      · intro h
        exact Bool.noConfusion h
      · first
        | (intro h
           exact Bool.noConfusion h)
        | (split
           · split
             · intro h
               exact Bool.noConfusion h
             · intro h
               exact Bool.noConfusion h
           · split
             · intro h
               exact Bool.noConfusion h
             · intro h
               exact Bool.noConfusion h)

theorem map_empty_no_eexist (data : ArmLpaeData) (iova paddr size : Nat)
    (prot : Iopte) :
    ∀ (fuel lvl : Nat) (path : List Nat) (ms : Option MapState) (budget n : Nat),
    (__arm_lpae_map data iova paddr size prot lvl
      (PTab.mk (List.replicate n (0, none))) path ms budget fuel).ret ≠ -EEXIST := by
  intro fuel
  induction fuel with
  | zero =>
    intro lvl path ms budget n
    simp only [__arm_lpae_map, readSlot_empty]
    split
    · split
      · simp only [arm_lpae_init_pte_zero_ret]
        exact (by decide : ¬((0 : Int) = -EEXIST))
      · split <;>
          · simp only [arm_lpae_init_pte_zero_ret]
            exact (by decide : ¬((0 : Int) = -EEXIST))
    · split
      · exact (by decide : ¬((-EINVAL : Int) = -EEXIST))
      · exact (by decide : ¬((-EINVAL : Int) = -EEXIST))
  | succ fuel ih =>
    intro lvl path ms budget n
    simp only [__arm_lpae_map, readSlot_empty]
    split
    · split
      · simp only [arm_lpae_init_pte_zero_ret]
        exact (by decide : ¬((0 : Int) = -EEXIST))
      · split <;>
          · simp only [arm_lpae_init_pte_zero_ret]
            exact (by decide : ¬((0 : Int) = -EEXIST))
    · split
      · exact (by decide : ¬((-EINVAL : Int) = -EEXIST))
      · by_cases hb : budget = 0
        · rw [if_pos hb]
          exact (by decide : ¬((-ENOMEM : Int) = -EEXIST))
        · rw [if_neg hb]
          simp only [emptyTable]
          exact ih _ _ _ _ _

/-- Whenever the recursive mapper reports -EEXIST, the tree is unchanged. -/
theorem map_eexist_unchanged (data : ArmLpaeData) (iova paddr size : Nat)
    (prot : Iopte) :
    ∀ (fuel lvl : Nat) (tbl : PTab) (path : List Nat) (ms : Option MapState)
      (budget : Nat),
    (__arm_lpae_map data iova paddr size prot lvl tbl path ms budget fuel).ret =
      -EEXIST →
    (__arm_lpae_map data iova paddr size prot lvl tbl path ms budget fuel).tbl =
      tbl := by
  intro fuel
  induction fuel with
  | zero =>
    intro lvl tbl path ms budget
    by_cases hc1 : size = ARM_LPAE_BLOCK_SIZE lvl data ∧ size &&& data.cfg.pgsize_bitmap ≠ 0
    · cases ms with
      | none =>
        simp only [__arm_lpae_map, if_pos hc1]
        intro hr
        rcases arm_lpae_init_pte_ret_cases data iova paddr prot lvl
            (readSlot tbl (ARM_LPAE_LVL_IDX iova lvl data)) true with h0 | hs
        · rw [h0] at hr
          exact absurd hr (by decide)
        · rw [hs, writeSlot_readSlot]
      | some msv =>
        by_cases hc5 : lvl = MAP_STATE_LVL
        · simp only [__arm_lpae_map, if_pos hc1, if_pos hc5]
          intro hr
          rcases arm_lpae_init_pte_ret_cases data iova paddr prot lvl
              (readSlot tbl (ARM_LPAE_LVL_IDX iova lvl data)) false with h0 | hs
          · rw [h0] at hr
            exact absurd hr (by decide)
          · rw [hs, writeSlot_readSlot]
        · simp only [__arm_lpae_map, if_pos hc1, if_neg hc5]
          intro hr
          rcases arm_lpae_init_pte_ret_cases data iova paddr prot lvl
              (readSlot tbl (ARM_LPAE_LVL_IDX iova lvl data)) true with h0 | hs
          · rw [h0] at hr
            exact absurd hr (by decide)
          · rw [hs, writeSlot_readSlot]
    · by_cases hc2 : ARM_LPAE_MAX_LEVELS - 1 ≤ lvl
      · simp only [__arm_lpae_map, if_neg hc1, if_pos hc2]
        intro hr
        exact absurd hr (by decide)
      · simp only [__arm_lpae_map, if_neg hc1, if_neg hc2]
        intro hr
        exact absurd hr (by decide)
  | succ fuel ih =>
    intro lvl tbl path ms budget
    by_cases hc1 : size = ARM_LPAE_BLOCK_SIZE lvl data ∧ size &&& data.cfg.pgsize_bitmap ≠ 0
    · cases ms with
      | none =>
        simp only [__arm_lpae_map, if_pos hc1]
        intro hr
        rcases arm_lpae_init_pte_ret_cases data iova paddr prot lvl
            (readSlot tbl (ARM_LPAE_LVL_IDX iova lvl data)) true with h0 | hs
        · rw [h0] at hr
          exact absurd hr (by decide)
        · rw [hs, writeSlot_readSlot]
      | some msv =>
        by_cases hc5 : lvl = MAP_STATE_LVL
        · simp only [__arm_lpae_map, if_pos hc1, if_pos hc5]
          intro hr
          rcases arm_lpae_init_pte_ret_cases data iova paddr prot lvl
              (readSlot tbl (ARM_LPAE_LVL_IDX iova lvl data)) false with h0 | hs
          · rw [h0] at hr
            exact absurd hr (by decide)
          · rw [hs, writeSlot_readSlot]
        · simp only [__arm_lpae_map, if_pos hc1, if_neg hc5]
          intro hr
          rcases arm_lpae_init_pte_ret_cases data iova paddr prot lvl
              (readSlot tbl (ARM_LPAE_LVL_IDX iova lvl data)) true with h0 | hs
          · rw [h0] at hr
            exact absurd hr (by decide)
          · rw [hs, writeSlot_readSlot]
    · by_cases hc2 : ARM_LPAE_MAX_LEVELS - 1 ≤ lvl
      · simp only [__arm_lpae_map, if_neg hc1, if_pos hc2]
        intro hr
        exact absurd hr (by decide)
      · by_cases hc3 : (readSlot tbl (ARM_LPAE_LVL_IDX iova lvl data)).1 = 0
        · by_cases hc4 : budget = 0
          · simp only [__arm_lpae_map, if_neg hc1, if_neg hc2, if_pos hc3, if_pos hc4]
            intro hr
            exact absurd hr (by decide)
          · simp only [__arm_lpae_map, if_neg hc1, if_neg hc2, if_pos hc3, if_neg hc4]
            intro hr
            exfalso
            apply map_empty_no_eexist data iova paddr size prot fuel (lvl + 1)
              (path ++ [ARM_LPAE_LVL_IDX iova lvl data]) ms (budget - 1)
              ((1 <<< data.pg_shift) / 8)
            simpa only [emptyTable] using hr
        · cases hc : (readSlot tbl (ARM_LPAE_LVL_IDX iova lvl data)).2 with
          | some cptep =>
            simp only [__arm_lpae_map, if_neg hc1, if_neg hc2, if_neg hc3, hc]
            intro hr
            have hif : (__arm_lpae_map data iova paddr size prot (lvl + 1) cptep
                (path ++ [ARM_LPAE_LVL_IDX iova lvl data]) ms budget fuel).installed_here
                = false := by
              cases hinst : (__arm_lpae_map data iova paddr size prot (lvl + 1) cptep
                  (path ++ [ARM_LPAE_LVL_IDX iova lvl data]) ms budget fuel).installed_here with
              | false => rfl
              | true =>
                have h0 := map_installed_ret data iova paddr size prot fuel (lvl + 1)
                  cptep (path ++ [ARM_LPAE_LVL_IDX iova lvl data]) ms budget hinst
                rw [h0] at hr
                exact absurd hr (by decide)
            rw [ih (lvl + 1) cptep (path ++ [ARM_LPAE_LVL_IDX iova lvl data]) ms budget hr]
            simp only [hif, Bool.false_eq_true, if_false]
            rw [← hc, Prod.mk.eta, writeSlot_readSlot]
          | none =>
            simp only [__arm_lpae_map, if_neg hc1, if_neg hc2, if_neg hc3, hc]
            intro hr
            trivial

/-- C3 (amended): whenever map returns the conflict error -EEXIST, the tree
is unchanged; the error arises exactly from a valid descriptor in the slot
examined at the level where the new entry would be installed. An overlap
with a larger block mapped at a shallower level is not detected (see the
counterexample): the walker dereferences the block descriptor as though it
referenced a table and returns 0. -/
theorem C3_overlap_eexist (data : ArmLpaeData) (t : PTab) (iova paddr size : Nat)
    (prot : IommuProt) (budget : Nat)
    (h : (arm_lpae_map data t iova paddr size prot budget).1 = -EEXIST) :
    (arm_lpae_map data t iova paddr size prot budget).2.1 = t := by
  revert h
  simp only [arm_lpae_map]
  split
  · intro h
    exact absurd h (show ¬ (0 : Int) = -EEXIST by decide)
  · intro h
    exact map_eexist_unchanged data iova paddr size (arm_lpae_prot_to_pte data prot)
      ARM_LPAE_MAX_LEVELS (ARM_LPAE_START_LVL data) t [] none budget h

/-- C3 counterexample: mapping a 4 KiB page at iova 0x40001000 while the
2 MiB block [0x40000000, 0x40200000) is mapped overlaps a valid block
descriptor, yet the call returns 0 rather than -EEXIST (and the overlap is
real: the address still translates through the block). -/
theorem C3_overlap_eexist_cex :
    (arm_lpae_map dS1 t2M_dS1 0x40001000 0x9990000 0x1000 protRW 10).1 ≠ -EEXIST ∧
    (arm_lpae_map dS1 t2M_dS1 0x40001000 0x9990000 0x1000 protRW 10).1 = 0 ∧
    arm_lpae_iova_to_phys dS1 t2M_dS1 0x40001000 = 0x80001000 :=
  ⟨by decide, by decide, by decide⟩

theorem C3_overlap_eexist_witness :
    (arm_lpae_map dS1 mappedPage_dS1 0x1234000 0x9990000 0x1000 protRW 10).1 =
      -EEXIST ∧
    (arm_lpae_map dS1 mappedPage_dS1 0x1234000 0x9990000 0x1000 protRW 10).2.1 =
      mappedPage_dS1 :=
  ⟨by decide,
   C3_overlap_eexist dS1 mappedPage_dS1 0x1234000 0x9990000 0x1000 protRW 10
     (by decide)⟩

/-- C6 (amended): when the FIRST chunk of the scatterlist has an offset not
aligned to the smallest supported page size, map_sg returns 0 with no side
effects: the tree is unchanged, the reported remainder is 0 and no hook is
called. For a later chunk the check fires only after earlier chunks were
installed, so the remainder and the tree keep that prefix (see the
counterexample). -/
theorem C6_map_sg_align (data : ArmLpaeData) (t : PTab) (iova : Nat)
    (s0 : ScatterEntry) (rest : List ScatterEntry) (prot : IommuProt) (budget : Nat)
    (h : ¬ s0.offset % (1 <<< __ffs data.cfg.pgsize_bitmap) = 0) :
    arm_lpae_map_sg data t iova (s0 :: rest) prot budget = ⟨0, some 0, t, []⟩ := by
  rw [arm_lpae_map_sg]
  split
  · rfl
  · simp only [arm_lpae_map_sg_chunks]
    rw [if_pos h]

theorem C6_map_sg_align_witness :
    ¬ (0x80 : Nat) % (1 <<< __ffs dS1.cfg.pgsize_bitmap) = 0 ∧
    arm_lpae_map_sg dS1 (arm_lpae_pgd dS1) 0x5000 [⟨0x222000, 0x80, 0x1000⟩]
      protRW 10 = ⟨0, some 0, arm_lpae_pgd dS1, []⟩ :=
  ⟨by decide,
   C6_map_sg_align dS1 (arm_lpae_pgd dS1) 0x5000 ⟨0x222000, 0x80, 0x1000⟩ []
     protRW 10 (by decide)⟩

/-- C6 counterexample: with the misaligned chunk second, map_sg returns 0
but has side effects: the first page stays mapped and the reported
remainder is 0x1000, not 0. -/
theorem C6_map_sg_align_cex :
    (arm_lpae_map_sg dS1 (arm_lpae_pgd dS1) 0x5000 sgMis protRW 10).ret = 0 ∧
    (arm_lpae_map_sg dS1 (arm_lpae_pgd dS1) 0x5000 sgMis protRW 10).size_out =
      some 0x1000 ∧
    arm_lpae_iova_to_phys dS1
      (arm_lpae_map_sg dS1 (arm_lpae_pgd dS1) 0x5000 sgMis protRW 10).tbl 0x5000 =
      0x111000 :=
  ⟨by decide, by decide, by decide⟩

/-! Leaf-descriptor anatomy: the physical frame bits and the type bits of
the value arm_lpae_init_pte writes, for the translation theorems. -/

theorem aligned_testBit_low {x n j : Nat} (hal : x % 2 ^ n = 0) (hj : j < n) :
    x.testBit j = false := by
  have h := Nat.testBit_mod_two_pow x n j
  rw [hal] at h
  simp only [Nat.zero_testBit] at h
  have hjt : decide (j < n) = true := by simp [hj]
  rw [hjt, Bool.true_and] at h
  exact h.symm

theorem pfn_to_iopte_testBit (data : ArmLpaeData) (paddr : Nat)
    (hal : paddr % 2 ^ data.pg_shift = 0) (j : Nat) :
    (pfn_to_iopte (paddr >>> data.pg_shift) data).testBit j =
      (paddr.testBit j && decide (j < 48)) := by
  rw [pfn_to_iopte, Nat.testBit_and, show ((1 <<< ARM_LPAE_MAX_ADDR_BITS) - 1 : Nat)
    = 2 ^ 48 - 1 from by decide, Nat.testBit_two_pow_sub_one]
  congr 1
  rw [Nat.testBit_shiftLeft]
  by_cases hj : data.pg_shift ≤ j
  · have : decide (data.pg_shift ≤ j) = true := by simp [hj]
    rw [this, Bool.true_and, Nat.testBit_shiftRight]
    congr 1
    omega
  · have h1 : decide (data.pg_shift ≤ j) = false := by simp; omega
    rw [h1, Bool.false_and]
    symm
    exact aligned_testBit_low hal (by omega)

/-- No protection encoding touches the descriptor type bits. -/
theorem arm_lpae_prot_to_pte_low2 (data : ArmLpaeData) (prot : IommuProt) :
    arm_lpae_prot_to_pte data prot &&& 3 = 0 := by
  rw [arm_lpae_prot_to_pte_only_fmt]
  rcases prot with ⟨r, w, c, nx, dev, pv⟩
  rcases data.fmt <;> rcases r <;> rcases w <;> rcases c <;> rcases nx <;>
    rcases dev <;> rcases pv <;> decide

theorem init_pte_value_testBit_mid (data : ArmLpaeData) (prot : IommuProt)
    (paddr lvl : Nat) (hal : paddr % 2 ^ data.pg_shift = 0)
    (hpg12 : 12 ≤ data.pg_shift) (j : Nat) (h12 : 12 ≤ j) (h48 : j < 48) :
    (arm_lpae_init_pte_value data paddr (arm_lpae_prot_to_pte data prot)
      lvl).testBit j = paddr.testBit j := by
  obtain ⟨hplow, hdecomp⟩ := arm_lpae_prot_to_pte_decomp data prot
  rw [arm_lpae_init_pte_value_eq, hdecomp]
  have hpow : (2 : Nat) ^ 12 ≤ 2 ^ j := Nat.pow_le_pow_right (by norm_num) h12
  have hlow : ∀ x : Nat, x < 2 ^ 12 → x.testBit j = false := fun x hx =>
    Nat.testBit_eq_false_of_lt (lt_of_lt_of_le hx hpow)
  have hplow' := hlow _ hplow
  have hxn : (if prot.noexec then ARM_LPAE_PTE_XN else 0).testBit j = false := by
    split
    · rw [testBit_XN]
      simp
      omega
    · exact Nat.zero_testBit j
  have hns : (if data.cfg.quirk_arm_ns then ARM_LPAE_PTE_NS else 0).testBit j = false := by
    apply hlow
    split <;> decide
  have htyp : (if lvl = ARM_LPAE_MAX_LEVELS - 1 then ARM_LPAE_PTE_TYPE_PAGE
      else ARM_LPAE_PTE_TYPE_BLOCK).testBit j = false := by
    apply hlow
    split <;> decide
  have hafsh : (ARM_LPAE_PTE_AF ||| ARM_LPAE_PTE_SH_IS).testBit j = false := by
    apply hlow
    decide
  have hpfn := pfn_to_iopte_testBit data paddr hal j
  have h48t : decide (j < 48) = true := by simp [h48]
  simp only [Nat.testBit_or, hplow', hxn, hns, htyp, hafsh, hpfn, h48t,
    Bool.or_false, Bool.false_or, Bool.and_true]

theorem init_pte_value_pfn (data : ArmLpaeData) (prot : IommuProt) (paddr lvl : Nat)
    (hpa : paddr < 2 ^ 48) (hal : paddr % 2 ^ data.pg_shift = 0)
    (hpg12 : 12 ≤ data.pg_shift) :
    iopte_to_pfn (arm_lpae_init_pte_value data paddr
      (arm_lpae_prot_to_pte data prot) lvl) data = paddr >>> data.pg_shift := by
  apply Nat.eq_of_testBit_eq
  intro i
  rw [iopte_to_pfn, Nat.testBit_shiftRight, Nat.testBit_and,
    show ((1 <<< ARM_LPAE_MAX_ADDR_BITS) - 1 : Nat) = 2 ^ 48 - 1 from by decide,
    Nat.testBit_two_pow_sub_one, Nat.testBit_shiftRight]
  by_cases h48 : data.pg_shift + i < 48
  · have ht : decide (data.pg_shift + i < 48) = true := by simp [h48]
    rw [ht, Bool.and_true]
    exact init_pte_value_testBit_mid data prot paddr lvl hal hpg12 _ (by omega) h48
  · have ht : decide (data.pg_shift + i < 48) = false := by simp; omega
    rw [ht, Bool.and_false]
    symm
    apply Nat.testBit_eq_false_of_lt
    exact lt_of_lt_of_le hpa (Nat.pow_le_pow_right (by norm_num) (by omega))

theorem land3_or (a b : Nat) : (a ||| b) &&& 3 = (a &&& 3) ||| (b &&& 3) := by
  apply Nat.eq_of_testBit_eq
  intro i
  simp only [Nat.testBit_and, Nat.testBit_or, Bool.and_or_distrib_right]

theorem init_pte_value_low2 (data : ArmLpaeData) (prot : IommuProt)
    (paddr lvl : Nat) (hal : paddr % 2 ^ data.pg_shift = 0)
    (hpg12 : 12 ≤ data.pg_shift) :
    arm_lpae_init_pte_value data paddr (arm_lpae_prot_to_pte data prot) lvl &&& 3 =
      (if lvl = ARM_LPAE_MAX_LEVELS - 1 then ARM_LPAE_PTE_TYPE_PAGE
       else ARM_LPAE_PTE_TYPE_BLOCK) := by
  rw [arm_lpae_init_pte_value_eq]
  obtain ⟨hplow, hdecomp⟩ := arm_lpae_prot_to_pte_decomp data prot
  rw [hdecomp]
  simp only [land3_or]
  have hprot := arm_lpae_prot_to_pte_low2 data
    ⟨prot.read, prot.write, prot.cache, false, prot.device, prot.priv⟩
  rw [hprot]
  have hxn : (if prot.noexec then ARM_LPAE_PTE_XN else 0) &&& 3 = 0 := by
    split <;> decide
  have hns : (if data.cfg.quirk_arm_ns then ARM_LPAE_PTE_NS else 0) &&& 3 = 0 := by
    split <;> decide
  have htyp : (if lvl = ARM_LPAE_MAX_LEVELS - 1 then ARM_LPAE_PTE_TYPE_PAGE
      else ARM_LPAE_PTE_TYPE_BLOCK) &&& 3 =
      (if lvl = ARM_LPAE_MAX_LEVELS - 1 then ARM_LPAE_PTE_TYPE_PAGE
       else ARM_LPAE_PTE_TYPE_BLOCK) := by
    split <;> decide
  have hpfn : pfn_to_iopte (paddr >>> data.pg_shift) data &&& 3 = 0 := by
    apply Nat.eq_of_testBit_eq
    intro i
    rw [Nat.testBit_and, pfn_to_iopte_testBit data paddr hal i, Nat.zero_testBit]
    by_cases hi : i < 2
    · have : paddr.testBit i = false := aligned_testBit_low hal (by omega)
      rw [this, Bool.false_and, Bool.false_and]
    · have : (3 : Nat).testBit i = false := by
        apply Nat.testBit_eq_false_of_lt
        calc (3 : Nat) < 2 ^ 2 := by norm_num
          _ ≤ 2 ^ i := Nat.pow_le_pow_right (by norm_num) (by omega)
      rw [this, Bool.and_false]
  simp [hprot, hxn, hns, htyp, hpfn,
    (by decide : (ARM_LPAE_PTE_AF : Nat) &&& 3 = 0),
    (by decide : (ARM_LPAE_PTE_SH_IS : Nat) &&& 3 = 0)]

theorem init_pte_value_leaf (data : ArmLpaeData) (prot : IommuProt)
    (paddr lvl : Nat) (hal : paddr % 2 ^ data.pg_shift = 0)
    (hpg12 : 12 ≤ data.pg_shift) :
    iopte_leaf (arm_lpae_init_pte_value data paddr
      (arm_lpae_prot_to_pte data prot) lvl) lvl = true := by
  have h2 := init_pte_value_low2 data prot paddr lvl hal hpg12
  rw [iopte_leaf, iopte_type, ARM_LPAE_PTE_TYPE_SHIFT, Nat.shiftRight_zero,
    ARM_LPAE_PTE_TYPE_MASK]
  by_cases hl : lvl = ARM_LPAE_MAX_LEVELS - 1
  · rw [if_pos hl] at h2 ⊢
    rw [h2]
    simp [ARM_LPAE_PTE_TYPE_PAGE]
  · rw [if_neg hl] at h2 ⊢
    rw [h2]
    simp [ARM_LPAE_PTE_TYPE_BLOCK]

theorem init_pte_value_ne_zero (data : ArmLpaeData) (prot : IommuProt)
    (paddr lvl : Nat) (hal : paddr % 2 ^ data.pg_shift = 0)
    (hpg12 : 12 ≤ data.pg_shift) :
    arm_lpae_init_pte_value data paddr (arm_lpae_prot_to_pte data prot) lvl ≠ 0 := by
  intro h0
  have h2 := init_pte_value_low2 data prot paddr lvl hal hpg12
  rw [h0] at h2
  revert h2
  split <;> decide

/-! Table-descriptor anatomy. -/

theorem tblcnt_set_and3 (p v : Nat) : iopte_tblcnt_set p v &&& 3 = p &&& 3 := by
  apply Nat.eq_of_testBit_eq
  intro i
  simp only [Nat.testBit_and]
  by_cases hi : i < 2
  · rw [iopte_tblcnt_set_bit_other (by omega) (by omega)]
  · have : (3 : Nat).testBit i = false := by
      apply Nat.testBit_eq_false_of_lt
      calc (3 : Nat) < 2 ^ 2 := by norm_num
        _ ≤ 2 ^ i := Nat.pow_le_pow_right (by norm_num) (by omega)
    rw [this, Bool.and_false, Bool.and_false]

theorem tblcnt_add_and3 (p n : Nat) : iopte_tblcnt_add p n &&& 3 = p &&& 3 := by
  rw [iopte_tblcnt_add]
  exact tblcnt_set_and3 p _

theorem newpte_and3 (q : Bool) :
    ((ARM_LPAE_PTE_TYPE_TABLE : Iopte) ||| (if q then ARM_LPAE_PTE_NSTABLE else 0))
      &&& 3 = 3 := by
  rcases q <;> decide

theorem and3_ne_zero {x : Nat} (h : x &&& 3 = 3) : x ≠ 0 := by
  intro h0
  rw [h0] at h
  exact absurd h (by decide)

theorem table_not_leaf {x lvl : Nat} (hl : lvl ≠ ARM_LPAE_MAX_LEVELS - 1)
    (h : x &&& 3 = 3) : iopte_leaf x lvl = false := by
  rw [iopte_leaf, if_neg hl, iopte_type, ARM_LPAE_PTE_TYPE_SHIFT,
    Nat.shiftRight_zero, ARM_LPAE_PTE_TYPE_MASK, h]
  simp [ARM_LPAE_PTE_TYPE_BLOCK]

/-! Geometry arithmetic. -/

theorem lvl_shift_eq (d : ArmLpaeData) (l : Nat) (hlev : d.levels ≤ 4)
    (hst : ARM_LPAE_START_LVL d ≤ l) (hl3 : l ≤ 3) :
    ARM_LPAE_LVL_SHIFT l d = (3 - l) * d.bits_per_level + d.pg_shift := by
  rw [ARM_LPAE_LVL_SHIFT]
  congr 2
  rw [ARM_LPAE_START_LVL, ARM_LPAE_MAX_LEVELS] at *
  omega

theorem block_size_eq (d : ArmLpaeData) (l : Nat)
    (hbpl : d.bits_per_level = d.pg_shift - 3) (hpg : 3 ≤ d.pg_shift)
    (hlev : d.levels ≤ 4) (hst : ARM_LPAE_START_LVL d ≤ l) (hl3 : l ≤ 3) :
    ARM_LPAE_BLOCK_SIZE l d = 2 ^ ARM_LPAE_LVL_SHIFT l d := by
  rw [ARM_LPAE_BLOCK_SIZE, lvl_shift_eq d l hlev hst hl3, one_shiftLeft_eq]
  congr 1
  rw [show ilog2 8 = 3 from rfl, ARM_LPAE_MAX_LEVELS]
  have h4 : 4 - l = (3 - l) + 1 := by omega
  rw [h4, Nat.succ_mul]
  omega

theorem lvl_shift_mono (d : ArmLpaeData) (l l2 : Nat) (hlev : d.levels ≤ 4)
    (hst : ARM_LPAE_START_LVL d ≤ l) (hll : l ≤ l2) (hl3 : l2 ≤ 3) :
    ARM_LPAE_LVL_SHIFT l2 d ≤ ARM_LPAE_LVL_SHIFT l d := by
  rw [lvl_shift_eq d l hlev hst (by omega), lvl_shift_eq d l2 hlev (by omega) hl3]
  have : (3 - l2) * d.bits_per_level ≤ (3 - l) * d.bits_per_level :=
    Nat.mul_le_mul_right _ (by omega)
  omega

theorem pg_le_lvl_shift (d : ArmLpaeData) (l : Nat) (hlev : d.levels ≤ 4)
    (hst : ARM_LPAE_START_LVL d ≤ l) (hl3 : l ≤ 3) :
    d.pg_shift ≤ ARM_LPAE_LVL_SHIFT l d := by
  rw [lvl_shift_eq d l hlev hst hl3]
  omega

/-- Adding an offset below the alignment of the base does not change any
shifted-out prefix at or above the alignment width. -/
theorem shiftRight_add_small {iova k S sh : Nat} (hS : S ≤ sh)
    (hal : iova % 2 ^ S = 0) (hk : k < 2 ^ S) :
    (iova + k) >>> sh = iova >>> sh := by
  rw [Nat.shiftRight_eq_div_pow, Nat.shiftRight_eq_div_pow]
  have hpos : 0 < 2 ^ sh := Nat.pos_pow_of_pos sh (by norm_num)
  have hmm : iova % 2 ^ sh % 2 ^ S = 0 := by
    rw [Nat.mod_mod_of_dvd _ (pow_dvd_pow 2 hS)]
    exact hal
  obtain ⟨m, hm⟩ := Nat.dvd_of_mod_eq_zero hmm
  have hmlt : iova % 2 ^ sh < 2 ^ sh := Nat.mod_lt _ hpos
  have hsplit : 2 ^ sh = 2 ^ S * 2 ^ (sh - S) := by
    rw [← pow_add]
    congr 1
    omega
  have hmb : m < 2 ^ (sh - S) := by
    by_contra hmb
    push_neg at hmb
    have : 2 ^ S * 2 ^ (sh - S) ≤ 2 ^ S * m := Nat.mul_le_mul_left _ hmb
    rw [← hsplit] at this
    omega
  have hsum : iova % 2 ^ sh + k < 2 ^ sh := by
    have h1 : 2 ^ S * m + 2 ^ S ≤ 2 ^ S * 2 ^ (sh - S) := by
      have : m + 1 ≤ 2 ^ (sh - S) := hmb
      calc 2 ^ S * m + 2 ^ S = 2 ^ S * (m + 1) := by ring
        _ ≤ 2 ^ S * 2 ^ (sh - S) := Nat.mul_le_mul_left _ this
    rw [hm, hsplit]
    omega
  conv_lhs => rw [← Nat.div_add_mod iova (2 ^ sh)]
  rw [Nat.add_assoc, Nat.mul_add_div hpos, Nat.div_eq_of_lt hsum, Nat.add_zero]

theorem lvl_idx_stable (d : ArmLpaeData) (iova k S l : Nat)
    (hS : S ≤ ARM_LPAE_LVL_SHIFT l d) (hal : iova % 2 ^ S = 0) (hk : k < 2 ^ S) :
    ARM_LPAE_LVL_IDX (iova + k) l d = ARM_LPAE_LVL_IDX iova l d := by
  rw [ARM_LPAE_LVL_IDX, ARM_LPAE_LVL_IDX, shiftRight_add_small hS hal hk]

theorem lvl_idx_lt (d : ArmLpaeData) (a l : Nat) (hl : l ≠ ARM_LPAE_START_LVL d) :
    ARM_LPAE_LVL_IDX a l d < 2 ^ d.bits_per_level := by
  rw [ARM_LPAE_LVL_IDX, ARM_LPAE_PGD_IDX, if_neg hl, Nat.add_zero, one_shiftLeft_eq,
    Nat.and_pow_two_sub_one_eq_mod]
  exact Nat.mod_lt _ (Nat.pos_pow_of_pos _ (by norm_num))

theorem getD_set_self_of_lt {α : Type} : ∀ (l : List α) (i : Nat) (a d : α),
    i < l.length → (l.set i a).getD i d = a
  | _ :: _, 0, _, _, _ => rfl
  | _ :: l, i + 1, a, d, h => getD_set_self_of_lt l i a d (by
      simp only [List.length_cons] at h
      omega)

theorem readSlot_writeSlot_self {t : PTab} {idx : Nat} (s : Iopte × Option PTab)
    (h : idx < t.slots.length) : readSlot (writeSlot t idx s) idx = s := by
  cases t with
  | mk slots => exact getD_set_self_of_lt slots idx s _ h

theorem pathClear_idx {data : ArmLpaeData} {f : Nat} {t : PTab} {iova lvl lstar : Nat}
    (h : pathClear data (f + 1) t iova lvl lstar = true) :
    ARM_LPAE_LVL_IDX iova lvl data < t.slots.length := by
  rw [pathClear, Bool.and_eq_true] at h
  exact of_decide_eq_true h.1

theorem pathClear_leaf {data : ArmLpaeData} {f : Nat} {t : PTab} {iova lstar : Nat}
    (h : pathClear data (f + 1) t iova lstar lstar = true) :
    (readSlot t (ARM_LPAE_LVL_IDX iova lstar data)).1 = 0 := by
  rw [pathClear, Bool.and_eq_true, if_pos rfl] at h
  exact eq_of_beq h.2

theorem pathClear_descend {data : ArmLpaeData} {f : Nat} {t : PTab}
    {iova lvl lstar : Nat} (hne : lvl ≠ lstar)
    (h : pathClear data (f + 1) t iova lvl lstar = true)
    (hnz : (readSlot t (ARM_LPAE_LVL_IDX iova lvl data)).1 ≠ 0) :
    (readSlot t (ARM_LPAE_LVL_IDX iova lvl data)).1 &&& 3 = 3 ∧
    ∃ c, (readSlot t (ARM_LPAE_LVL_IDX iova lvl data)).2 = some c ∧
      pathClear data f c iova (lvl + 1) lstar = true := by
  rw [pathClear, Bool.and_eq_true, if_neg hne] at h
  have h2 := h.2
  rw [if_neg (by
    intro hb
    exact hnz (eq_of_beq hb))] at h2
  rw [Bool.and_eq_true] at h2
  refine ⟨eq_of_beq h2.1, ?_⟩
  rcases hc : (readSlot t (ARM_LPAE_LVL_IDX iova lvl data)).2 with _ | c
  · rw [hc] at h2
    exact absurd h2.2 (by simp)
  · rw [hc] at h2
    exact ⟨c, rfl, h2.2⟩

theorem pathClear_empty (data : ArmLpaeData)
    (hbpl : data.bits_per_level = data.pg_shift - 3) (hpg : 3 ≤ data.pg_shift)
    (iova lstar : Nat) (f lvl : Nat) (hst : ARM_LPAE_START_LVL data ≠ lvl) :
    pathClear data (f + 1) (emptyTable (1 <<< data.pg_shift)) iova lvl lstar = true := by
  rw [pathClear]
  have hlen : (emptyTable (1 <<< data.pg_shift)).slots.length = 2 ^ data.bits_per_level := by
    rw [emptyTable, PTab.slots, List.length_replicate, one_shiftLeft_eq, hbpl]
    rw [show (8 : Nat) = 2 ^ 3 from rfl, Nat.pow_div hpg (by norm_num)]
  have hidx : ARM_LPAE_LVL_IDX iova lvl data <
      (emptyTable (1 <<< data.pg_shift)).slots.length := by
    rw [hlen]
    exact lvl_idx_lt data iova lvl (fun he => hst he.symm)
  have hslot : readSlot (emptyTable (1 <<< data.pg_shift))
      (ARM_LPAE_LVL_IDX iova lvl data) = (0, none) := by
    rw [emptyTable]
    exact readSlot_empty _ _
  rw [hslot]
  simp [hidx]

theorem arm_lpae_init_pte_zero (data : ArmLpaeData) (iova paddr : Nat) (prot : Iopte)
    (lvl : Nat) (slot : Iopte × Option PTab) (flush : Bool) (hz : slot.1 = 0) :
    arm_lpae_init_pte data iova paddr prot lvl slot flush =
      (0, (arm_lpae_init_pte_value data paddr prot lvl, none),
       if flush then [TlbEvent.flush_pgtable 8] else []) := by
  rw [arm_lpae_init_pte, if_neg]
  simp [hz]

/-- Step equation: installing the leaf at this level over a clear slot. -/
theorem map_step_leaf (data : ArmLpaeData) (iova paddr size : Nat) (prot : Iopte)
    (lvl : Nat) (tbl : PTab) (path : List Nat) (budget fuel : Nat)
    (hcond : size = ARM_LPAE_BLOCK_SIZE lvl data ∧
      size &&& data.cfg.pgsize_bitmap ≠ 0)
    (hz : (readSlot tbl (ARM_LPAE_LVL_IDX iova lvl data)).1 = 0) :
    __arm_lpae_map data iova paddr size prot lvl tbl path none budget fuel =
      ⟨0, writeSlot tbl (ARM_LPAE_LVL_IDX iova lvl data)
        (arm_lpae_init_pte_value data paddr prot lvl, none), true, budget, none,
        [TlbEvent.flush_pgtable 8]⟩ := by
  cases fuel <;>
  · simp only [__arm_lpae_map, if_pos hcond]
    rw [arm_lpae_init_pte_zero data iova paddr prot lvl _ true hz]
    rfl

/-- Step equation: a clear slot above the install level allocates a fresh
table and recurses into it. -/
theorem map_step_alloc (data : ArmLpaeData) (iova paddr size : Nat) (prot : Iopte)
    (lvl : Nat) (tbl : PTab) (path : List Nat) (ms : Option MapState)
    (budget fuel : Nat)
    (hcond1 : ¬ (size = ARM_LPAE_BLOCK_SIZE lvl data ∧
      size &&& data.cfg.pgsize_bitmap ≠ 0))
    (hcond2 : ¬ ARM_LPAE_MAX_LEVELS - 1 ≤ lvl)
    (hz : (readSlot tbl (ARM_LPAE_LVL_IDX iova lvl data)).1 = 0)
    (hb : ¬ budget = 0) :
    __arm_lpae_map data iova paddr size prot lvl tbl path ms budget (fuel + 1) =
      ⟨(__arm_lpae_map data iova paddr size prot (lvl + 1)
          (emptyTable (1 <<< data.pg_shift))
          (path ++ [ARM_LPAE_LVL_IDX iova lvl data]) ms (budget - 1) fuel).ret,
       writeSlot tbl (ARM_LPAE_LVL_IDX iova lvl data)
        ((if (__arm_lpae_map data iova paddr size prot (lvl + 1)
              (emptyTable (1 <<< data.pg_shift))
              (path ++ [ARM_LPAE_LVL_IDX iova lvl data]) ms (budget - 1)
              fuel).installed_here then
            iopte_tblcnt_add (ARM_LPAE_PTE_TYPE_TABLE |||
              (if data.cfg.quirk_arm_ns then ARM_LPAE_PTE_NSTABLE else 0)) 1
          else ARM_LPAE_PTE_TYPE_TABLE |||
            (if data.cfg.quirk_arm_ns then ARM_LPAE_PTE_NSTABLE else 0)),
         some (__arm_lpae_map data iova paddr size prot (lvl + 1)
            (emptyTable (1 <<< data.pg_shift))
            (path ++ [ARM_LPAE_LVL_IDX iova lvl data]) ms (budget - 1) fuel).tbl),
       false,
       (__arm_lpae_map data iova paddr size prot (lvl + 1)
          (emptyTable (1 <<< data.pg_shift))
          (path ++ [ARM_LPAE_LVL_IDX iova lvl data]) ms (budget - 1) fuel).budget,
       (__arm_lpae_map data iova paddr size prot (lvl + 1)
          (emptyTable (1 <<< data.pg_shift))
          (path ++ [ARM_LPAE_LVL_IDX iova lvl data]) ms (budget - 1) fuel).ms,
       TlbEvent.flush_pgtable (1 <<< data.pg_shift) :: TlbEvent.flush_pgtable 8 ::
         (__arm_lpae_map data iova paddr size prot (lvl + 1)
            (emptyTable (1 <<< data.pg_shift))
            (path ++ [ARM_LPAE_LVL_IDX iova lvl data]) ms (budget - 1) fuel).evs⟩ := by
  conv_lhs => simp only [__arm_lpae_map]
  rw [if_neg hcond1, if_neg hcond2, if_pos hz, if_neg hb]

/-- Step equation: a populated slot above the install level is dereferenced
and the walk continues in the owned child. -/
theorem map_step_deref (data : ArmLpaeData) (iova paddr size : Nat) (prot : Iopte)
    (lvl : Nat) (tbl : PTab) (c : PTab) (path : List Nat) (ms : Option MapState)
    (budget fuel : Nat)
    (hcond1 : ¬ (size = ARM_LPAE_BLOCK_SIZE lvl data ∧
      size &&& data.cfg.pgsize_bitmap ≠ 0))
    (hcond2 : ¬ ARM_LPAE_MAX_LEVELS - 1 ≤ lvl)
    (hnz : ¬ (readSlot tbl (ARM_LPAE_LVL_IDX iova lvl data)).1 = 0)
    (hc : (readSlot tbl (ARM_LPAE_LVL_IDX iova lvl data)).2 = some c) :
    __arm_lpae_map data iova paddr size prot lvl tbl path ms budget (fuel + 1) =
      ⟨(__arm_lpae_map data iova paddr size prot (lvl + 1) c
          (path ++ [ARM_LPAE_LVL_IDX iova lvl data]) ms budget fuel).ret,
       writeSlot tbl (ARM_LPAE_LVL_IDX iova lvl data)
        ((if (__arm_lpae_map data iova paddr size prot (lvl + 1) c
              (path ++ [ARM_LPAE_LVL_IDX iova lvl data]) ms budget
              fuel).installed_here then
            iopte_tblcnt_add (readSlot tbl (ARM_LPAE_LVL_IDX iova lvl data)).1 1
          else (readSlot tbl (ARM_LPAE_LVL_IDX iova lvl data)).1),
         some (__arm_lpae_map data iova paddr size prot (lvl + 1) c
            (path ++ [ARM_LPAE_LVL_IDX iova lvl data]) ms budget fuel).tbl),
       false,
       (__arm_lpae_map data iova paddr size prot (lvl + 1) c
          (path ++ [ARM_LPAE_LVL_IDX iova lvl data]) ms budget fuel).budget,
       (__arm_lpae_map data iova paddr size prot (lvl + 1) c
          (path ++ [ARM_LPAE_LVL_IDX iova lvl data]) ms budget fuel).ms,
       (__arm_lpae_map data iova paddr size prot (lvl + 1) c
          (path ++ [ARM_LPAE_LVL_IDX iova lvl data]) ms budget fuel).evs⟩ := by
  conv_lhs => simp only [__arm_lpae_map]
  rw [if_neg hcond1, if_neg hcond2, if_neg hnz, hc]

theorem shr_shl_aligned {x n : Nat} (hal : x % 2 ^ n = 0) : (x >>> n) <<< n = x := by
  rw [Nat.shiftRight_eq_div_pow, Nat.shiftLeft_eq]
  exact Nat.div_mul_cancel (Nat.dvd_of_mod_eq_zero hal)

theorem aligned_mono {x S n : Nat} (hal : x % 2 ^ S = 0) (hn : n ≤ S) :
    x % 2 ^ n = 0 := by
  obtain ⟨q, hq⟩ := Nat.dvd_of_mod_eq_zero hal
  rw [hq, show (2 : Nat) ^ S = 2 ^ n * 2 ^ (S - n) from by
    rw [← pow_add]
    congr 1
    omega]
  rw [Nat.mul_assoc, Nat.mul_mod_right]

theorem add_mod_self_of_aligned {x k S : Nat} (hal : x % 2 ^ S = 0)
    (hk : k < 2 ^ S) : (x + k) % 2 ^ S = k := by
  obtain ⟨q, hq⟩ := Nat.dvd_of_mod_eq_zero hal
  rw [hq, Nat.mul_add_mod]
  exact Nat.mod_eq_of_lt hk

/-- The master walk lemma: on a path-clear tree with enough budget and
fuel, the mapper succeeds and every address of the installed block
translates to its physical counterpart. -/
theorem map_translate_core (data : ArmLpaeData) (prot : IommuProt)
    (iova paddr lstar : Nat)
    (hbpl : data.bits_per_level = data.pg_shift - 3)
    (hpg12 : 12 ≤ data.pg_shift)
    (hlev : data.levels ≤ 4)
    (hl3 : lstar ≤ 3)
    (hbm : ARM_LPAE_BLOCK_SIZE lstar data &&& data.cfg.pgsize_bitmap ≠ 0)
    (hpa48 : paddr < 2 ^ 48)
    (hial : iova % ARM_LPAE_BLOCK_SIZE lstar data = 0)
    (hpal : paddr % ARM_LPAE_BLOCK_SIZE lstar data = 0)
    (k : Nat) (hk : k < ARM_LPAE_BLOCK_SIZE lstar data) :
    ∀ (fuel lvl : Nat) (tbl : PTab) (path : List Nat) (budget : Nat),
    ARM_LPAE_START_LVL data ≤ lvl → lvl ≤ lstar →
    lstar - lvl < fuel → lstar - lvl ≤ budget →
    pathClear data (lstar - lvl + 1) tbl iova lvl lstar = true →
    (__arm_lpae_map data iova paddr (ARM_LPAE_BLOCK_SIZE lstar data)
      (arm_lpae_prot_to_pte data prot) lvl tbl path none budget fuel).ret = 0 ∧
    ∀ tf, lstar - lvl < tf →
      arm_lpae_iova_to_phys_aux data tf
        (some (__arm_lpae_map data iova paddr (ARM_LPAE_BLOCK_SIZE lstar data)
          (arm_lpae_prot_to_pte data prot) lvl tbl path none budget fuel).tbl)
        (iova + k) lvl = paddr + k := by
  intro fuel
  induction fuel with
  | zero =>
    intro lvl tbl path budget _ _ h3 _ _
    exact absurd h3 (by omega)
  | succ fuel ih =>
    intro lvl tbl path budget hstart hlle hfuel hbud hclear
    have hstl : ARM_LPAE_START_LVL data ≤ lstar := le_trans hstart hlle
    have hBS : ARM_LPAE_BLOCK_SIZE lstar data = 2 ^ ARM_LPAE_LVL_SHIFT lstar data :=
      block_size_eq data lstar hbpl (by omega) hlev hstl hl3
    have hialS : iova % 2 ^ ARM_LPAE_LVL_SHIFT lstar data = 0 := hBS ▸ hial
    have hpalS : paddr % 2 ^ ARM_LPAE_LVL_SHIFT lstar data = 0 := hBS ▸ hpal
    have hkS : k < 2 ^ ARM_LPAE_LVL_SHIFT lstar data := hBS ▸ hk
    have hpgS : data.pg_shift ≤ ARM_LPAE_LVL_SHIFT lstar data :=
      pg_le_lvl_shift data lstar hlev hstl hl3
    have hpalpg : paddr % 2 ^ data.pg_shift = 0 := aligned_mono hpalS hpgS
    by_cases hls : lvl = lstar
    · subst hls
      have hidx := pathClear_idx hclear
      have hz := pathClear_leaf hclear
      rw [map_step_leaf data iova paddr _ _ lvl tbl path budget (fuel + 1)
        ⟨rfl, hbm⟩ hz]
      refine ⟨rfl, ?_⟩
      intro tf htf
      cases tf with
      | zero => exact absurd htf (by omega)
      | succ tf =>
        simp only [arm_lpae_iova_to_phys_aux]
        rw [lvl_idx_stable data iova k _ lvl (le_refl _) hialS hkS]
        rw [readSlot_writeSlot_self _ hidx]
        rw [if_neg (init_pte_value_ne_zero data prot paddr lvl hpalpg hpg12)]
        rw [if_pos (init_pte_value_leaf data prot paddr lvl hpalpg hpg12)]
        rw [init_pte_value_pfn data prot paddr lvl hpa48 hpalpg hpg12]
        rw [shr_shl_aligned hpalpg]
        rw [one_shiftLeft_eq, Nat.and_pow_two_sub_one_eq_mod]
        rw [add_mod_self_of_aligned hialS hkS]
        exact lor_eq_add_of_mod _ hpalS hkS
    · have hlt : lvl < lstar := lt_of_le_of_ne hlle hls
      have hBSl : ARM_LPAE_BLOCK_SIZE lvl data = 2 ^ ARM_LPAE_LVL_SHIFT lvl data :=
        block_size_eq data lvl hbpl (by omega) hlev hstart (by omega)
      have hshlt : ARM_LPAE_LVL_SHIFT lstar data < ARM_LPAE_LVL_SHIFT lvl data := by
        rw [lvl_shift_eq data lvl hlev hstart (by omega),
          lvl_shift_eq data lstar hlev hstl hl3]
        have hb0 : 0 < data.bits_per_level := by omega
        have : (3 - lstar) * data.bits_per_level < (3 - lvl) * data.bits_per_level :=
          (Nat.mul_lt_mul_right hb0).2 (by omega)
        omega
      have hcond1 : ¬ (ARM_LPAE_BLOCK_SIZE lstar data = ARM_LPAE_BLOCK_SIZE lvl data ∧
          ARM_LPAE_BLOCK_SIZE lstar data &&& data.cfg.pgsize_bitmap ≠ 0) := by
        intro hcc
        have := hcc.1
        rw [hBS, hBSl] at this
        have := Nat.pow_right_injective (le_refl 2) this
        omega
      have hcond2 : ¬ ARM_LPAE_MAX_LEVELS - 1 ≤ lvl := by
        rw [ARM_LPAE_MAX_LEVELS]
        omega
      have hidx := pathClear_idx hclear
      have hstab : ARM_LPAE_LVL_IDX (iova + k) lvl data =
          ARM_LPAE_LVL_IDX iova lvl data :=
        lvl_idx_stable data iova k _ lvl (le_of_lt hshlt) hialS hkS
      have hfc : lstar - lvl = lstar - (lvl + 1) + 1 := by omega
      by_cases hz : (readSlot tbl (ARM_LPAE_LVL_IDX iova lvl data)).1 = 0
      · -- fresh table allocated
        have hb0 : ¬ budget = 0 := by omega
        rw [map_step_alloc data iova paddr _ _ lvl tbl path none budget fuel
          hcond1 hcond2 hz hb0]
        have hclear2 : pathClear data (lstar - (lvl + 1) + 1)
            (emptyTable (1 <<< data.pg_shift)) iova (lvl + 1) lstar = true :=
          pathClear_empty data hbpl (by omega) iova lstar _ (lvl + 1) (by omega)
        obtain ⟨hret, htrans⟩ := ih (lvl + 1) (emptyTable (1 <<< data.pg_shift))
          (path ++ [ARM_LPAE_LVL_IDX iova lvl data]) (budget - 1)
          (by omega) (by omega) (by omega) (by omega) hclear2
        refine ⟨hret, ?_⟩
        intro tf htf
        cases tf with
        | zero => exact absurd htf (by omega)
        | succ tf =>
          simp only [arm_lpae_iova_to_phys_aux]
          rw [hstab, readSlot_writeSlot_self _ hidx]
          have hcd3 : (if (__arm_lpae_map data iova paddr
              (ARM_LPAE_BLOCK_SIZE lstar data) (arm_lpae_prot_to_pte data prot)
              (lvl + 1) (emptyTable (1 <<< data.pg_shift))
              (path ++ [ARM_LPAE_LVL_IDX iova lvl data]) none (budget - 1)
              fuel).installed_here then
                iopte_tblcnt_add (ARM_LPAE_PTE_TYPE_TABLE |||
                  (if data.cfg.quirk_arm_ns then ARM_LPAE_PTE_NSTABLE else 0)) 1
              else ARM_LPAE_PTE_TYPE_TABLE |||
                (if data.cfg.quirk_arm_ns then ARM_LPAE_PTE_NSTABLE else 0)) &&& 3
              = 3 := by
            split
            · rw [tblcnt_add_and3]
              exact newpte_and3 data.cfg.quirk_arm_ns
            · exact newpte_and3 data.cfg.quirk_arm_ns
          rw [if_neg (and3_ne_zero hcd3)]
          rw [if_neg (by
            rw [table_not_leaf (by rw [ARM_LPAE_MAX_LEVELS]; omega) hcd3]
            exact Bool.false_ne_true)]
          rw [if_pos (by rw [ARM_LPAE_MAX_LEVELS]; omega)]
          exact htrans tf (by omega)
      · -- dereference the populated slot
        obtain ⟨htype, c, hc, hclearc⟩ := pathClear_descend hls (hfc ▸ hclear) hz
        rw [map_step_deref data iova paddr _ _ lvl tbl c path none budget fuel
          hcond1 hcond2 hz hc]
        obtain ⟨hret, htrans⟩ := ih (lvl + 1) c
          (path ++ [ARM_LPAE_LVL_IDX iova lvl data]) budget
          (by omega) (by omega) (by omega) (by omega) hclearc
        refine ⟨hret, ?_⟩
        intro tf htf
        cases tf with
        | zero => exact absurd htf (by omega)
        | succ tf =>
          simp only [arm_lpae_iova_to_phys_aux]
          rw [hstab, readSlot_writeSlot_self _ hidx]
          have hcd3 : (if (__arm_lpae_map data iova paddr
              (ARM_LPAE_BLOCK_SIZE lstar data) (arm_lpae_prot_to_pte data prot)
              (lvl + 1) c (path ++ [ARM_LPAE_LVL_IDX iova lvl data]) none budget
              fuel).installed_here then
                iopte_tblcnt_add (readSlot tbl (ARM_LPAE_LVL_IDX iova lvl data)).1 1
              else (readSlot tbl (ARM_LPAE_LVL_IDX iova lvl data)).1) &&& 3 = 3 := by
            split
            · rw [tblcnt_add_and3]
              exact htype
            · exact htype
          rw [if_neg (and3_ne_zero hcd3)]
          rw [if_neg (by
            rw [table_not_leaf (by rw [ARM_LPAE_MAX_LEVELS]; omega) hcd3]
            exact Bool.false_ne_true)]
          rw [if_pos (by rw [ARM_LPAE_MAX_LEVELS]; omega)]
          exact htrans tf (by omega)

theorem block_size_pos (l : Nat) (d : ArmLpaeData) : 0 < ARM_LPAE_BLOCK_SIZE l d := by
  rw [ARM_LPAE_BLOCK_SIZE, one_shiftLeft_eq]
  positivity

/-- C1: a successful map of one block over a previously unmapped,
suitably aligned range makes every offset of the block translate to the
corresponding physical address. The "previously unmapped" hypothesis is
the structural one: the walk along iova reaches a clear slot at or before
the level of the requested size, crossing only genuine table descriptors
(pathClear); all addresses of the range share that walk, and the other
hypotheses are the geometry a constructed allocator provides, the
alignment the callers owe, and enough allocation budget. -/
theorem C1_map_iova_to_phys (data : ArmLpaeData) (t : PTab)
    (iova paddr size lstar : Nat) (prot : IommuProt) (budget : Nat)
    (hacc : prot.read = true ∨ prot.write = true)
    (hbpl : data.bits_per_level = data.pg_shift - 3)
    (hpg12 : 12 ≤ data.pg_shift)
    (hlev : data.levels ≤ 4)
    (hstl : ARM_LPAE_START_LVL data ≤ lstar)
    (hl3 : lstar ≤ 3)
    (hsz : size = ARM_LPAE_BLOCK_SIZE lstar data)
    (hbm : size &&& data.cfg.pgsize_bitmap ≠ 0)
    (hpa48 : paddr < 2 ^ 48)
    (hial : iova % size = 0)
    (hpal : paddr % size = 0)
    (hbud : lstar ≤ budget)
    (hclear : pathClear data (lstar - ARM_LPAE_START_LVL data + 1) t iova
      (ARM_LPAE_START_LVL data) lstar = true) :
    (arm_lpae_map data t iova paddr size prot budget).1 = 0 ∧
    ∀ k, k < size →
      arm_lpae_iova_to_phys data
        (arm_lpae_map data t iova paddr size prot budget).2.1 (iova + k) =
        paddr + k := by
  subst hsz
  rw [arm_lpae_map, if_neg (not_not_intro hacc)]
  constructor
  · exact (map_translate_core data prot iova paddr lstar hbpl hpg12 hlev hl3 hbm
      hpa48 hial hpal 0 (block_size_pos lstar data) ARM_LPAE_MAX_LEVELS
      (ARM_LPAE_START_LVL data) t [] budget (le_refl _) hstl (by
        rw [ARM_LPAE_MAX_LEVELS]
        omega) (by omega) hclear).1
  · intro k hkk
    rw [arm_lpae_iova_to_phys]
    exact (map_translate_core data prot iova paddr lstar hbpl hpg12 hlev hl3 hbm
      hpa48 hial hpal k hkk ARM_LPAE_MAX_LEVELS
      (ARM_LPAE_START_LVL data) t [] budget (le_refl _) hstl (by
        rw [ARM_LPAE_MAX_LEVELS]
        omega) (by omega) hclear).2 ARM_LPAE_MAX_LEVELS (by
        rw [ARM_LPAE_MAX_LEVELS]
        omega)

set_option maxRecDepth 100000 in
theorem C1_map_iova_to_phys_witness :
    (arm_lpae_map dS1 (arm_lpae_pgd dS1) 0x1234000 0x5678000 0x1000 protRW 10).1
      = 0 ∧
    arm_lpae_iova_to_phys dS1
      (arm_lpae_map dS1 (arm_lpae_pgd dS1) 0x1234000 0x5678000 0x1000 protRW
        10).2.1 (0x1234000 + 0x123) = 0x5678000 + 0x123 :=
  have h := C1_map_iova_to_phys dS1 (arm_lpae_pgd dS1) 0x1234000 0x5678000
    0x1000 3 protRW 10 (by decide) (by decide) (by decide) (by decide) (by decide)
    (by decide) (by decide) (by decide) (by decide) (by decide) (by decide)
    (by decide) (by decide)
  ⟨h.1, h.2 0x123 (by decide)⟩

theorem newpte_ne_zero (q : Bool) :
    ((ARM_LPAE_PTE_TYPE_TABLE : Iopte) |||
      (if q then ARM_LPAE_PTE_NSTABLE else 0)) ≠ 0 :=
  and3_ne_zero (newpte_and3 q)

end IoPgtableArm
